import Mathlib

/-!
# Portfolio page script (src/script.js): motion gate, skill bars, reveal observers

A shallow embedding of the parts of src/script.js that decide the motion
preference (motionAllowed, updateMotionToggleUI, the motion-toggle click
handler), that drive the skill bars (animateSkillBars, applySkillFallback,
revealElementForce, animateHero), that reveal sections on intersection
(observeAll, the callbacks of the two reveal observers, revealOnIntersect),
and of animateNameColorCycle, initNavUnderline and throttle, followed by
theorems about them.

Conventions of the embedding
* A JavaScript exception is a value of JSError; a function that may throw
  returns Except JSError, or an Outcome when the effects made before the throw
  must be kept.
* localStorage is either unavailable (every access throws) or a map
  from keys to strings, read with getItem and written with setItem.
* Calls into the animation library (gsap) are not executed: each call is
  appended to a log, and the callbacks handed to the library (onUpdate,
  onComplete) are separate functions on the page state that the library may
  run later.
-/

namespace Portfolio

/-! ## JavaScript values -/

/-- Exceptions the script can raise: a failing storage access and a property
access on null. -/
inductive JSError where
  | securityError
  | typeError
  deriving DecidableEq, Repr

/-- The key under which the override is persisted (script.js line 10). -/
def MOTION_KEY : String := "portfolio_prefers_reduced_motion"

/-! ## Persisted key-value store -/

/-- The browser store behind the global localStorage: unavailable (reading or
writing throws), or a map from keys to stored strings. -/
inductive LocalStorage where
  | unavailable
  | available (items : String → Option String)

/-- Store contents after writing value v under key k. -/
def putItem (items : String → Option String) (k v : String) : String → Option String :=
  fun j => if j = k then some v else items j

/-- The call localStorage.getItem(k): null (none) when the key is absent. -/
def LocalStorage.getItem : LocalStorage → String → Except JSError (Option String)
  | .unavailable, _ => .error .securityError
  | .available items, k => .ok (items k)

/-- The call localStorage.setItem(k, v). -/
def LocalStorage.setItem : LocalStorage → String → String → Except JSError LocalStorage
  | .unavailable, _, _ => .error .securityError
  | .available items, k, v => .ok (.available (putItem items k v))

/-- The store with nothing in it. -/
def emptyItems : String → Option String := fun _ => none

/-- What the gate reads: the OS reduced-motion signal captured once at load
(line 15, by truthiness) and the persisted store. -/
structure Env where
  prefersReducedMotion : Bool
  localStorage : LocalStorage

/-! ## Motion preference gate (lines 18-40) -/

/-- The function motionAllowed (lines 18-22). -/
def motionAllowed (env : Env) : Except JSError Bool :=
  if env.prefersReducedMotion then .ok false
  else do
    let v ← env.localStorage.getItem MOTION_KEY
    if v = some "true" then .ok false else .ok true

/-- The motion toggle button: its aria-pressed attribute and whether its class
list holds the class active. -/
structure ToggleButton where
  ariaPressed : Option String
  active : Bool
  deriving DecidableEq, Repr

/-- The function updateMotionToggleUI (lines 25-30); the argument is the
element found by getElementById, none when there is no such element. -/
def updateMotionToggleUI (env : Env) (motionToggle : Option ToggleButton) :
    Except JSError (Option ToggleButton) :=
  match motionToggle with
  | none => .ok none
  | some _ => do
    let active ←
      if env.prefersReducedMotion then (.ok true : Except JSError Bool)
      else do
        let v ← env.localStorage.getItem MOTION_KEY
        .ok (decide (v = some "true"))
    .ok (some { ariaPressed := some (if active then "true" else "false"), active := active })

/-- The text of a boolean, as Boolean.prototype.toString gives it. -/
def boolToString (b : Bool) : String := if b then "true" else "false"

/-- The click handler of the motion toggle (lines 34-40), up to the page
reload: it returns the store and the button as the reload finds them. -/
def motionToggleClick (env : Env) (motionToggle : Option ToggleButton) :
    Except JSError (Env × Option ToggleButton) := do
  let v ← env.localStorage.getItem MOTION_KEY
  let cur := decide (v = some "true")
  let ls ← env.localStorage.setItem MOTION_KEY (boolToString (!cur))
  let env1 : Env := { env with localStorage := ls }
  let btn ← updateMotionToggleUI env1 motionToggle
  .ok (env1, btn)

/-- An environment whose store is available with the given contents. -/
def envOf (prm : Bool) (items : String → Option String) : Env :=
  { prefersReducedMotion := prm, localStorage := .available items }

/-- The value stored under MOTION_KEY, none when the store is unavailable or
the key is absent. -/
def storedOverride (env : Env) : Option String :=
  match env.localStorage with
  | .unavailable => none
  | .available items => items MOTION_KEY

/-! ## Numbers and strings of the skill-bar code -/

/-- The numbers the skill-bar code handles: NaN, or an integer. The code only
produces integers read from decimal digits and NaN; an integer stands for the
double nearest to it (equal to it up to 2^53), and clamping to [0, 100] gives
the same result on both. Beyond 2^53 the integer and the double differ, so
statements about an unclamped number are made for small values only. -/
inductive JSNumber where
  | nan
  | int (i : Int)
  deriving DecidableEq, Repr

/-- The function Math.min on two arguments: NaN when either is NaN. -/
def Math.min : JSNumber → JSNumber → JSNumber
  | .int a, .int b => .int (if a ≤ b then a else b)
  | _, _ => .nan

/-- The function Math.max on two arguments: NaN when either is NaN. -/
def Math.max : JSNumber → JSNumber → JSNumber
  | .int a, .int b => .int (if a ≤ b then b else a)
  | _, _ => .nan

/-- Number to string conversion, as in the expression pct + '%' and in
setAttribute: NaN prints as NaN, an integer in decimal. This is what the code
prints for integers up to 2^53 in absolute value; beyond that the double of
the code is rounded, and from 10^21 it prints in exponent form, which this
function does not follow. -/
def JSNumber.toJSString : JSNumber → String
  | .nan => "NaN"
  | .int i => toString i

/-- The string pct + '%'. -/
def percentText (pct : JSNumber) : String := pct.toJSString ++ "%"

/-- White space and line terminators of ECMAScript, the characters that
parseInt skips in front and that trim removes at both ends. -/
def isStrWhiteSpaceChar (c : Char) : Bool :=
  [0x09, 0x0A, 0x0B, 0x0C, 0x0D, 0x20, 0xA0, 0x1680, 0x2000, 0x2001, 0x2002, 0x2003,
   0x2004, 0x2005, 0x2006, 0x2007, 0x2008, 0x2009, 0x200A, 0x2028, 0x2029, 0x202F,
   0x205F, 0x3000, 0xFEFF].contains c.toNat

/-- Value of a run of decimal digits, most significant first. -/
def digitsValue (ds : List Char) : Nat :=
  ds.foldl (fun acc c => acc * 10 + (c.toNat - 48)) 0

/-- The call parseInt(s, 10): skip leading white space, read an optional sign,
then the longest run of decimal digits; NaN when that run is empty. -/
def parseInt (s : String) : JSNumber :=
  let t := s.toList.dropWhile isStrWhiteSpaceChar
  let negative := decide (t.head? = some '-')
  let body :=
    match t with
    | '-' :: r => r
    | '+' :: r => r
    | _ => t
  let z := body.takeWhile Char.isDigit
  if z.isEmpty then .nan
  else .int (if negative then -(digitsValue z : Int) else (digitsValue z : Int))

/-- The method String.prototype.trim. -/
def jsTrim (s : String) : String :=
  String.mk (((s.toList.dropWhile isStrWhiteSpaceChar).reverse.dropWhile
    isStrWhiteSpaceChar).reverse)

/-- The expression a || b on values that are a string, null or undefined: a
when a is a non-empty string, b otherwise. -/
def jsOr (a b : Option String) : Option String :=
  match a with
  | some s => if s = "" then b else some s
  | none => b

/-- The expression a || d with d a non-empty string literal. -/
def jsOrDefault (a : Option String) (d : String) : String :=
  match a with
  | some s => if s = "" then d else s
  | none => d

/-! ## Page state -/

/-- The nested .fill element of a skill bar: its inline style width, the empty
string when no width is set. -/
structure Fill where
  width : String
  deriving DecidableEq, Repr

/-- The assignment fill.style.width = pct + '%'. The style object keeps a value
only when it is a valid CSS width: a percentage that is not negative. NaN% and
a negative percentage are dropped and the old width stays. -/
def Fill.setWidthPercent (f : Fill) (pct : JSNumber) : Fill :=
  match pct with
  | .nan => f
  | .int i => if 0 ≤ i then { width := percentText pct } else f

/-- A .skill-bar element with what the script reads and writes on it.
* dataPercent: the attribute data-percent, read as dataset.percent and
  by getAttribute; none when the attribute is missing.
* animated: the attribute data-animated, read and written as dataset.animated.
* ariaValueNow: the attribute aria-valuenow.
* fill: the element found by bar.querySelector('.fill').
* closestSkill: whether bar.closest('.skill') finds an element.
* label: the text content of the .skill-percent element found inside the
  wrapper of the bar (the closest .skill, or else the parent element); none
  when there is no wrapper or no such element. The text is kept per bar: when
  two bars sit under one wrapper the code finds the same element for both and
  a write for one shows on the other, which this record does not follow.
  Statements about the label of a bar after a call are therefore made for
  calls that process that bar alone, or for the moment right after a write to
  it. The elements present do not change while the script runs. -/
structure SkillBar where
  dataPercent : Option String
  animated : Option String
  ariaValueNow : Option String
  fill : Option Fill
  closestSkill : Bool
  label : Option String
  deriving DecidableEq, Repr

/-- A section or card of the page: its id attribute, its inline opacity and the
skill bars inside it in document order (querySelectorAll('.skill-bar')). -/
structure Element where
  id : String
  opacity : String
  skillBars : List Nat
  deriving DecidableEq, Repr

/-- The hero name or tagline element as splitToChars sees it: inline opacity,
dataset.original, text content, dataset.spans, and the .word spans with their
.char spans. -/
structure TextEl where
  opacity : String
  original : Option String
  textContent : String
  spans : Option String
  words : List (List Char)
  deriving DecidableEq, Repr

/-- Which hero text a hero call addresses. -/
inductive HeroText where
  | name
  | tagline
  deriving DecidableEq, Repr

/-- A call made to the animation library, recorded instead of executed.
* killTweensOfFill i: gsap.killTweensOf(fill) for the fill of bar i (line 346).
* fillTo i w: gsap.to(fill, width w, duration 1.2) for bar i (line 347).
* countUp i pct: gsap.to(obj, v pct, duration 1.1, onUpdate, onComplete) with
  obj = { v: 0 } for the label of bar i (lines 352-364).
* entranceForce e: the gsap.fromTo on the target of revealElementForce (line 474).
* killTweensOfChars, setChars: lines 99-103 of animateHero.
* timelineKill, heroTimeline: lines 105-110 of animateHero.
* entrance e: the gsap.fromTo on a revealed element (lines 398 and 546).
* innerEntrance cs: the staggered gsap.fromTo on the inner cards of a revealed
  element (lines 402 and 549).
* colorTweenKill, colorCycle: colorTween.kill() and the repeating color tween
  on #name (lines 636, 640-649, 652).
* colorReset: gsap.to(nameEl, color var(--primary), duration 0.3) (line 654). -/
inductive GsapCall where
  | killTweensOfFill (bar : Nat)
  | fillTo (bar : Nat) (width : String)
  | countUp (bar : Nat) (pct : JSNumber)
  | entranceForce (el : Nat)
  | killTweensOfChars (t : HeroText)
  | setChars (t : HeroText)
  | timelineKill
  | heroTimeline
  | entrance (el : Nat)
  | innerEntrance (cards : List Nat)
  | colorTweenKill
  | colorCycle
  | colorReset
  deriving DecidableEq, Repr

/-- Whether a recorded call asks the library for a tween; kill and set calls
do not. -/
def GsapCall.isTween : GsapCall → Bool
  | .fillTo _ _ => true
  | .countUp _ _ => true
  | .entranceForce _ => true
  | .heroTimeline => true
  | .entrance _ => true
  | .innerEntrance _ => true
  | .colorCycle => true
  | .colorReset => true
  | _ => false

/-- Whether a recorded call addresses skill bar i: a kill of the tweens of its
fill, a tween of its fill, or the count-up of its label. -/
def GsapCall.addressesBar (i : Nat) : GsapCall → Bool
  | .killTweensOfFill j => decide (j = i)
  | .fillTo j _ => decide (j = i)
  | .countUp j _ => decide (j = i)
  | _ => false

/-- The mutable page: sections and skill bars by element number, the hero
texts (#name, #tagline; none when the page has no such element), whether the
variable heroTl holds a timeline, and the log of library calls. -/
structure World where
  elems : Nat → Element
  bars : Nat → SkillBar
  nameEl : Option TextEl
  taglineEl : Option TextEl
  heroTl : Bool
  gsap : List GsapCall

/-- A run of script code: the page as the run left it and the exception, if
any, that ended it. -/
structure Outcome where
  world : World
  thrown : Option JSError

/-- Replace skill bar i. -/
def World.setBar (w : World) (i : Nat) (b : SkillBar) : World :=
  { w with bars := fun j => if j = i then b else w.bars j }

/-- Replace section i. -/
def World.setElem (w : World) (i : Nat) (e : Element) : World :=
  { w with elems := fun j => if j = i then e else w.elems j }

/-- Append calls to the library log. -/
def World.call (w : World) (cs : List GsapCall) : World :=
  { w with gsap := w.gsap ++ cs }

/-! ## Skill bars (lines 315-370) -/

/-- The percentage of line 324:
Math.max(0, Math.min(100, parseInt(dataset.percent || getAttribute || '0', 10))). -/
def skillPercent (bar : SkillBar) : JSNumber :=
  Math.max (.int 0)
    (Math.min (.int 100) (parseInt (jsOrDefault (jsOr bar.dataPercent bar.dataPercent) "0")))

/-- Assignment to percentLabel.textContent, for a label that exists. -/
def SkillBar.setLabel (bar : SkillBar) (text : String) : SkillBar :=
  { bar with label := bar.label.map (fun _ => text) }

/-- The onUpdate callback of the count-up tween of bar i (lines 357-359);
rounded is Math.round(obj.v) at that frame. -/
def countUpOnUpdate (i : Nat) (rounded : JSNumber) (w : World) : World :=
  w.setBar i ((w.bars i).setLabel (percentText rounded))

/-- The onComplete callback of the count-up tween of bar i (lines 360-363). -/
def countUpOnComplete (i : Nat) (pct : JSNumber) (w : World) : World :=
  w.setBar i { (w.bars i).setLabel (percentText pct) with animated := some "true" }

/-- The completion callback a recorded call carries; only the count-up has one. -/
def GsapCall.onComplete : GsapCall → World → World
  | .countUp i pct, w => countUpOnComplete i pct w
  | _, w => w

/-- What one pass of the forEach callback does to its bar: the bar afterwards,
the library calls made, and the exception that ended the pass, if any. -/
structure BarStep where
  bar : SkillBar
  calls : List GsapCall
  thrown : Option JSError

/-- Lines 332-333, the branch for a bar that is already animated: a label
whose trimmed text is 0% is set to pct%, a fill without a width gets pct%. -/
def showFinal (pct : JSNumber) (bar : SkillBar) : SkillBar :=
  { bar with
    label :=
      match bar.label with
      | some t => if jsTrim t = "0%" then some (percentText pct) else some t
      | none => none
    fill :=
      match bar.fill with
      | some f => if f.width = "" then some (f.setWidthPercent pct) else some f
      | none => none }

/-- Lines 321-368 on the skill bar numbered i, whose state is bar0. -/
def animateBar (allowMotion force : Bool) (i : Nat) (bar0 : SkillBar) : BarStep :=
  let pct := skillPercent bar0
  let bar : SkillBar := { bar0 with ariaValueNow := some pct.toJSString }
  if !force && decide (bar.animated = some "true") then
    ⟨showFinal pct bar, [], none⟩
  else if !allowMotion then
    match bar.fill with
    | none => ⟨bar, [], some .typeError⟩
    | some f =>
      ⟨{ bar with
          fill := some (f.setWidthPercent pct)
          label := bar.label.map (fun _ => percentText pct)
          animated := some "true" }, [], none⟩
  else
    match bar.label with
    | some _ =>
      ⟨bar, [.killTweensOfFill i, .fillTo i (percentText pct), .countUp i pct], none⟩
    | none =>
      ⟨{ bar with animated := some "true" },
        [.killTweensOfFill i, .fillTo i (percentText pct)], none⟩

/-- The body of the forEach callback of animateSkillBars (lines 320-368) for
one array entry: none is a null entry, some i the skill bar numbered i. -/
def animateSkillBar (allowMotion force : Bool) (entry : Option Nat) (w : World) : Outcome :=
  match entry with
  | none => ⟨w, none⟩
  | some i =>
    let r := animateBar allowMotion force i (w.bars i)
    ⟨(w.setBar i r.bar).call r.calls, r.thrown⟩

/-- Array.prototype.forEach with a callback that may throw: a throw ends the
loop and keeps what earlier iterations did. -/
def forEachEntry (f : Option Nat → World → Outcome) : List (Option Nat) → World → Outcome
  | [], w => ⟨w, none⟩
  | entry :: rest, w =>
    match f entry w with
    | ⟨w1, none⟩ => forEachEntry f rest w1
    | ⟨w1, some e⟩ => ⟨w1, some e⟩

/-- The function animateSkillBars (lines 315-370); force is options.force. -/
def animateSkillBars (env : Env) (bars : List (Option Nat)) (force : Bool) (w : World) :
    Outcome :=
  if bars.isEmpty then ⟨w, none⟩
  else
    match motionAllowed env with
    | .error e => ⟨w, some e⟩
    | .ok allowMotion => forEachEntry (animateSkillBar allowMotion force) bars w

/-! ## Hero animation (lines 56-111) and forced reveal (lines 470-484) -/

/-- The call text.split(' ') on the characters of a string. -/
def splitOnSpace : List Char → List (List Char)
  | [] => [[]]
  | c :: cs =>
    match splitOnSpace cs with
    | [] => if c = ' ' then [[], []] else [[c]]
    | word :: more => if c = ' ' then [] :: word :: more else (c :: word) :: more

/-- The function splitToChars (lines 56-81) on an element that exists: the
element afterwards; the .char spans it returns are those of its words. -/
def splitToChars (el : TextEl) : TextEl :=
  if el.spans = some "true" then el
  else
    let text := jsTrim (jsOrDefault (jsOr el.original (some el.textContent)) "")
    let words := splitOnSpace text.toList
    { el with words := words, textContent := String.mk words.flatten, spans := some "true" }

/-- The function animateHero (lines 85-111). -/
def animateHero (env : Env) (w : World) : Outcome :=
  match w.nameEl, w.taglineEl with
  | some nameEl, some taglineEl =>
    match motionAllowed env with
    | .error e => ⟨w, some e⟩
    | .ok false =>
      ⟨{ w with nameEl := some { nameEl with opacity := "1" },
                taglineEl := some { taglineEl with opacity := "1" } }, none⟩
    | .ok true =>
      let w1 : World := { w with nameEl := some (splitToChars nameEl),
                                 taglineEl := some (splitToChars taglineEl) }
      let w2 := w1.call [.killTweensOfChars .name, .killTweensOfChars .tagline,
                         .setChars .name, .setChars .tagline]
      let w3 := if w2.heroTl then w2.call [.timelineKill] else w2
      ⟨{ w3.call [.heroTimeline] with heroTl := true }, none⟩
  | _, _ => ⟨w, none⟩

/-- The function revealElementForce (lines 470-484); the argument is the
number of the target element, none for a null target. -/
def revealElementForce (env : Env) (target : Option Nat) (w : World) : Outcome :=
  match target with
  | none => ⟨w, none⟩
  | some t =>
    match motionAllowed env with
    | .error e => ⟨w, some e⟩
    | .ok allowed =>
      let w1 :=
        if allowed then w.call [.entranceForce t]
        else w.setElem t { w.elems t with opacity := "1" }
      let skillBars := (w1.elems t).skillBars
      let o :=
        if skillBars.isEmpty then (⟨w1, none⟩ : Outcome)
        else animateSkillBars env (skillBars.map some) true w1
      match o.thrown with
      | some e => ⟨o.world, some e⟩
      | none =>
        if (o.world.elems t).id = "home" then animateHero env o.world else o

/-! ## Fallback for reduced motion (lines 373-385) -/

/-- The percentage of line 378: parseInt(b.dataset.percent || '0', 10), without
a clamp. -/
def fallbackPercent (bar : SkillBar) : JSNumber :=
  parseInt (jsOrDefault bar.dataPercent "0")

/-- Lines 377-383 on one skill bar; the label is looked up through
closest('.skill') only. -/
def fallbackBar (bar : SkillBar) : BarStep :=
  let pct := fallbackPercent bar
  match bar.fill with
  | none => ⟨bar, [], some .typeError⟩
  | some f =>
    let bar1 : SkillBar := { bar with fill := some (f.setWidthPercent pct) }
    let bar2 := if bar1.closestSkill then bar1.setLabel (percentText pct) else bar1
    ⟨{ bar2 with animated := some "true", ariaValueNow := some pct.toJSString }, [], none⟩

/-- The forEach callback of applySkillFallback on one entry of the node list. -/
def applySkillFallbackBar (entry : Option Nat) (w : World) : Outcome :=
  match entry with
  | none => ⟨w, none⟩
  | some i =>
    let r := fallbackBar (w.bars i)
    ⟨w.setBar i r.bar, r.thrown⟩

/-- The function applySkillFallback (lines 373-385) on the element numbered
container. -/
def applySkillFallback (container : Nat) (w : World) : Outcome :=
  let bars := (w.elems container).skillBars
  if bars.isEmpty then ⟨w, none⟩
  else forEachEntry applySkillFallbackBar (bars.map some) w

/-! ## Reveal observers (lines 388-425, 538-553, 805-826) -/

/-- An IntersectionObserverEntry: its target element and isIntersecting. The
target of an entry is always an element, so the test for a missing target on
line 540 never fires. -/
structure Entry where
  target : Nat
  isIntersecting : Bool
  deriving DecidableEq, Repr

/-- The page with its observers.
* sections: document.querySelectorAll('.section, .project-card, .card').
* innerCards e: the inner cards that element e holds (lines 400 and 547).
* observed: the targets of the observer bound to the constant revealObserver
  (line 388).
* windowObserved: the targets of the observer stored in window.revealObserver
  (line 808); none while that property is undefined. -/
structure Page where
  world : World
  sections : List Nat
  innerCards : Nat → List Nat
  observed : List Nat
  windowObserved : Option (List Nat)

/-- A run of script code on a page with observers. -/
structure PageOutcome where
  page : Page
  thrown : Option JSError

/-- The two reveal observers of the script. -/
inductive Observer where
  | revealObserver
  | windowRevealObserver
  deriving DecidableEq, Repr

/-- The call observer.observe(el): registering a target twice changes nothing. -/
def observeTarget (targets : List Nat) (el : Nat) : List Nat :=
  if el ∈ targets then targets else targets ++ [el]

/-- The call observer.unobserve(el). -/
def unobserveTarget (targets : List Nat) (el : Nat) : List Nat :=
  targets.filter (fun x => decide (x ≠ el))

/-- The targets an observer currently holds. -/
def Page.targets (p : Page) : Observer → List Nat
  | .revealObserver => p.observed
  | .windowRevealObserver => p.windowObserved.getD []

/-- The call unobserve(el) on one of the two observers. -/
def Page.unobserve (p : Page) (ob : Observer) (el : Nat) : Page :=
  match ob with
  | .revealObserver => { p with observed := unobserveTarget p.observed el }
  | .windowRevealObserver =>
    { p with windowObserved := p.windowObserved.map (fun ts => unobserveTarget ts el) }

/-- The call observe(el) on one of the two observers. -/
def Page.observe (p : Page) (ob : Observer) (el : Nat) : Page :=
  match ob with
  | .revealObserver => { p with observed := observeTarget p.observed el }
  | .windowRevealObserver =>
    { p with windowObserved := p.windowObserved.map (fun ts => observeTarget ts el) }

/-- The assignment el.style.opacity = v. -/
def World.setOpacity (w : World) (el : Nat) (v : String) : World :=
  w.setElem el { w.elems el with opacity := v }

/-- The entrance tweens of a revealed element: gsap.fromTo on the element, and
on its inner cards when it has any (lines 398-403 and 546-550). -/
def requestEntrance (inner : List Nat) (el : Nat) (w : World) : World :=
  let w1 := w.call [.entrance el]
  if inner.isEmpty then w1 else w1.call [.innerEntrance inner]

/-- The entrance of an intersecting element in the callback of revealObserver
(lines 391-408, without the unobserve calls); inner is the list of its inner
cards. -/
def revealDispatch (env : Env) (inner : List Nat) (el : Nat) (w : World) : Outcome :=
  match motionAllowed env with
  | .error e => ⟨w, some e⟩
  | .ok false => applySkillFallback el (w.setOpacity el "1")
  | .ok true =>
    let w2 := requestEntrance inner el w
    let skillBars := (w2.elems el).skillBars
    if skillBars.isEmpty then ⟨w2, none⟩
    else animateSkillBars env (skillBars.map some) false w2

/-- The function revealOnIntersect (lines 538-553) on the target of an entry. -/
def revealOnIntersect (env : Env) (inner : List Nat) (el : Nat) (w : World) : Outcome :=
  match motionAllowed env with
  | .error e => ⟨w, some e⟩
  | .ok false => applySkillFallback el (w.setOpacity el "1")
  | .ok true =>
    let w2 := requestEntrance inner el w
    let skillBars := (w2.elems el).skillBars
    if skillBars.isEmpty then ⟨w2, none⟩
    else animateSkillBars env (skillBars.map some) false w2

/-- The forEach callback of an observer callback on one entry: lines 389-411
for revealObserver, lines 809-814 for window.revealObserver. An exception
leaves before unobserve is reached. -/
def revealEntry (env : Env) (ob : Observer) (entry : Entry) (p : Page) : PageOutcome :=
  if entry.isIntersecting then
    let o :=
      match ob with
      | .revealObserver => revealDispatch env (p.innerCards entry.target) entry.target p.world
      | .windowRevealObserver =>
        revealOnIntersect env (p.innerCards entry.target) entry.target p.world
    match o.thrown with
    | some e => ⟨{ p with world := o.world }, some e⟩
    | none => ⟨({ p with world := o.world } : Page).unobserve ob entry.target, none⟩
  else ⟨p, none⟩

/-- A forEach over a list with a callback that may throw: a throw ends the
loop and keeps what earlier iterations did. -/
def forEachThrow {α : Type} (f : α → Page → PageOutcome) : List α → Page → PageOutcome
  | [], p => ⟨p, none⟩
  | x :: rest, p =>
    match f x p with
    | ⟨p1, none⟩ => forEachThrow f rest p1
    | ⟨p1, some e⟩ => ⟨p1, some e⟩

/-- The callback of an observer on a batch of entries. -/
def observerCallback (env : Env) (ob : Observer) (entries : List Entry) (p : Page) :
    PageOutcome :=
  forEachThrow (revealEntry env ob) entries p

/-- The loop body shared by observeAll (lines 417-423) and by the loop of the
DOM-ready handler (lines 819-825), for the observer it registers with. -/
def registerOrSnap (env : Env) (ob : Observer) (el : Nat) (p : Page) : PageOutcome :=
  match motionAllowed env with
  | .error e => ⟨p, some e⟩
  | .ok false =>
    let o := applySkillFallback el (p.world.setOpacity el "1")
    ⟨{ p with world := o.world }, o.thrown⟩
  | .ok true =>
    ⟨({ p with world := p.world.setOpacity el "0" } : Page).observe ob el, none⟩

/-- The function observeAll (lines 415-425); it runs at DOM ready (line 774)
and in every reinitAllAnimations (line 749). -/
def observeAll (env : Env) (p : Page) : PageOutcome :=
  forEachThrow (registerOrSnap env .revealObserver) p.sections p

/-- Lines 805-826 of the DOM-ready handler: window.revealObserver is
disconnected if it already holds an observer, a new observer is stored in it,
and every section and card is registered with the new observer or snapped.
The observer of the constant revealObserver is not touched. -/
def setupWindowObserver (env : Env) (p : Page) : PageOutcome :=
  forEachThrow (registerOrSnap env .windowRevealObserver) p.sections
    { p with windowObserved := some [] }

/-! ## Color cycle of the name (lines 630-656) -/

/-- The variable colorTween shared by the two listeners that one run of
animateNameColorCycle registers: whether it holds a tween. -/
structure NameCycle where
  colorTween : Bool
  deriving DecidableEq, Repr

/-- The function animateNameColorCycle (lines 630-656): when #name exists a
mouseenter and a mouseleave listener are added to it, with colorTween null. It
does not consult motionAllowed. -/
def animateNameColorCycle (w : World) (listeners : List NameCycle) : List NameCycle :=
  match w.nameEl with
  | none => listeners
  | some _ => listeners ++ [{ colorTween := false }]

/-- The mouseenter listener of #name (lines 634-650). -/
def nameMouseEnter (env : Env) (c : NameCycle) (w : World) : Outcome × NameCycle :=
  match motionAllowed env with
  | .error e => (⟨w, some e⟩, c)
  | .ok false => (⟨w, none⟩, c)
  | .ok true =>
    let w1 := if c.colorTween then w.call [.colorTweenKill] else w
    (⟨w1.call [.colorCycle], none⟩, { colorTween := true })

/-- The mouseleave listener of #name (lines 651-655). -/
def nameMouseLeave (c : NameCycle) (w : World) : World × NameCycle :=
  let w1 := if c.colorTween then w.call [.colorTweenKill] else w
  (w1.call [.colorReset], { colorTween := false })

/-- A mouseleave event on #name: every registered listener runs, in order of
registration. -/
def nameMouseLeaveEvent : List NameCycle → World → World × List NameCycle
  | [], w => (w, [])
  | c :: rest, w =>
    let r := nameMouseLeave c w
    let r2 := nameMouseLeaveEvent rest r.1
    (r2.1, r.2 :: r2.2)

/-! ## Nav underline (lines 190-235) -/

/-- The element .nav-underline-global: the inline styles that moveUnderlineTo
writes. -/
structure Underline where
  opacity : String
  width : String
  left : String
  top : String
  deriving DecidableEq, Repr

/-- A listener or timer that initNavUnderline registers. -/
inductive NavListener where
  | linkMouseEnter (link : Nat)
  | linkMouseLeave (link : Nat)
  | windowResize
  | windowScroll
  | timeout
  | navActiveChanged
  deriving DecidableEq, Repr

/-- What initNavUnderline sees of the document: whether
document.querySelector('.nav') finds an element, how many links '.nav a'
matches, the element .nav-underline-global if present, and the listeners
registered so far. -/
structure NavDom where
  nav : Bool
  links : Nat
  underline : Option Underline
  listeners : List NavListener
  deriving DecidableEq, Repr

/-- The function initNavUnderline (lines 190-235). When there is no underline
element one is created and appended to the element found by
document.querySelector('.nav'); appendChild on null throws. -/
def initNavUnderline (d : NavDom) : Except JSError NavDom :=
  let created : Except JSError Underline :=
    match d.underline with
    | some u => .ok u
    | none =>
      if d.nav then .ok { opacity := "", width := "", left := "", top := "" }
      else .error .typeError
  match created with
  | .error e => .error e
  | .ok u =>
    .ok { d with
      underline := some u
      listeners := d.listeners
        ++ ((List.range d.links).map (fun a => [.linkMouseEnter a, .linkMouseLeave a])).flatten
        ++ [.windowResize, .windowScroll, .timeout, .navActiveChanged] }

/-! ## Throttle (lines 526-535) -/

/-- The variable last captured by one wrapper that throttle returns. -/
structure Throttled where
  last : Int
  deriving DecidableEq, Repr

/-- The state of a wrapper when throttle returns it: let last = 0. -/
def Throttled.fresh : Throttled := { last := 0 }

/-- One call of the wrapper returned by throttle(fn, wait), made when
Date.now() reads now, with arguments args; fn acts on a state s. Clock
readings and wait are whole milliseconds. -/
def throttle {α σ : Type} (fn : α → σ → σ) (wait : Int) (t : Throttled) (now : Int)
    (args : α) (s : σ) : Throttled × σ :=
  if now - t.last ≥ wait then ({ last := now }, fn args s) else (t, s)

/-- A sequence of calls of one wrapper, each with its clock reading and its
arguments. -/
def throttleCalls {α σ : Type} (fn : α → σ → σ) (wait : Int) :
    List (Int × α) → Throttled × σ → Throttled × σ
  | [], st => st
  | c :: cs, st => throttleCalls fn wait cs (throttle fn wait st.1 c.1 c.2 st.2)

/-- Stated from the specification: the calls that invoke fn, given the
reference time ref. A call is invoked exactly when at least wait milliseconds
have elapsed since the reference time, and an invoked call becomes the
reference; every other call is dropped. -/
def invokedCalls {α : Type} (wait : Int) : Int → List (Int × α) → List (Int × α)
  | _, [] => []
  | ref, c :: cs =>
    if c.1 - ref ≥ wait then c :: invokedCalls wait c.1 cs else invokedCalls wait ref cs

/-- The clock reading of the last call of a list, or ref for the empty list. -/
def lastTime {α : Type} (ref : Int) (cs : List (Int × α)) : Int :=
  match cs.getLast? with
  | some c => c.1
  | none => ref

/-! ## Predicates used by the statements about the observers -/

/-- A skill bar as a snap under disallowed motion leaves it: marked animated,
and, when the percentage of line 378 is an integer q in [0, 100] (where the
missing clamp of that line makes no difference and the number prints as
itself), with aria-valuenow q and fill width q%. The label is left out: bars
under one wrapper resolve to the same label element. -/
def SkillBar.snapped (b : SkillBar) : Prop :=
  b.animated = some "true"
  ∧ ∀ q : Int, fallbackPercent b = .int q → 0 ≤ q → q ≤ 100 →
      b.ariaValueNow = some (toString q) ∧ b.fill = some { width := toString q ++ "%" }

/-- What every step taken under disallowed motion keeps: the library log, the
skill bars of each element, an opacity of 1 once written, the data-percent
attribute and the presence of a fill of each bar, and the snapped state of a
bar once reached. -/
def StillStep (w w1 : World) : Prop :=
  w1.gsap = w.gsap
  ∧ (∀ x, (w1.elems x).skillBars = (w.elems x).skillBars
      ∧ ((w.elems x).opacity = "1" → (w1.elems x).opacity = "1"))
  ∧ (∀ i, (w1.bars i).dataPercent = (w.bars i).dataPercent
      ∧ (w1.bars i).fill.isSome = (w.bars i).fill.isSome
      ∧ ((w.bars i).snapped → (w1.bars i).snapped))

/-! ## Example pages -/

/-- A skill bar that is not marked animated, with a fill that has no width yet
and, when labelled, a label reading 0%. -/
def exampleBar (percent : Option String) (labelled : Bool) : SkillBar :=
  { dataPercent := percent, animated := none, ariaValueNow := none,
    fill := some { width := "" }, closestSkill := true,
    label := if labelled then some "0%" else none }

/-- A page whose section 0 is the skills section holding skill bar 0, without
hero texts and with an empty library log. -/
def examplePage (bar : SkillBar) : World :=
  { elems := fun _ => { id := "skills", opacity := "", skillBars := [0] },
    bars := fun _ => bar, nameEl := none, taglineEl := none, heroTl := false, gsap := [] }

/-- A skill bar marked animated whose label still reads 0% and whose fill has
no width, with data-percent 80. -/
def staleBar : SkillBar :=
  { dataPercent := some "80", animated := some "true", ariaValueNow := none,
    fill := some { width := "" }, closestSkill := true, label := some "0%" }

/-- A skill bar at rest after its animation: marked animated, label and fill
at 80%. -/
def settledBar : SkillBar :=
  { dataPercent := some "80", animated := some "true", ariaValueNow := some "80",
    fill := some { width := "80%" }, closestSkill := true, label := some "80%" }

/-- The environment with the OS signal false and nothing stored: motion is allowed. -/
def motionEnv : Env := envOf false emptyItems

/-- The environment with the OS signal true: motion is disallowed. -/
def reducedEnv : Env := envOf true emptyItems

/-- A labelled skill bar with data-percent 42 that has no nested .fill
element. -/
def fillLessBar : SkillBar :=
  { dataPercent := some "42", animated := none, ariaValueNow := none,
    fill := none, closestSkill := true, label := some "0%" }

/-- A page whose section 0 holds no skill bar. -/
def emptySectionPage : World :=
  { elems := fun _ => { id := "about", opacity := "", skillBars := [] },
    bars := fun _ => exampleBar none true, nameEl := none, taglineEl := none,
    heroTl := false, gsap := [] }

/-- A page that has the hero name element #name. -/
def namePage : World :=
  { elems := fun _ => { id := "home", opacity := "", skillBars := [] },
    bars := fun _ => exampleBar none true,
    nameEl := some { opacity := "", original := none, textContent := "Aashvi Shah",
                     spans := none, words := [] },
    taglineEl := none, heroTl := false, gsap := [] }

/-- A document without a .nav container and without an underline element. -/
def noNavDom : NavDom :=
  { nav := false, links := 0, underline := none, listeners := [] }

/-- The example page with its observers: section 0 is the only section, it
has no inner cards, and nothing is registered yet. -/
def examplePageState (bar : SkillBar) : Page :=
  { world := examplePage bar, sections := [0], innerCards := fun _ => [],
    observed := [], windowObserved := none }

/-- The example page after DOM ready with motion allowed: observeAll has run on
a page whose skill bar rests at 80%. -/
def afterReady : Page := (observeAll motionEnv (examplePageState settledBar)).page

/-- The page after section 0 has come into view and the callback of
revealObserver has run. -/
def afterReveal : Page :=
  (observerCallback motionEnv .revealObserver [{ target := 0, isIntersecting := true }]
    afterReady).page

/-- The page after a resize: reinitAllAnimations has run observeAll again. -/
def afterResize : Page := (observeAll motionEnv afterReveal).page

/-- The page after the callback of revealObserver has run once more for
section 0. -/
def afterSecondReveal : Page :=
  (observerCallback motionEnv .revealObserver [{ target := 0, isIntersecting := true }]
    afterResize).page

/-- The environment with the OS signal false and the override "true" stored,
as another tab may write it while this page stays loaded: motion is
disallowed. -/
def overrideEnv : Env := envOf false (putItem emptyItems MOTION_KEY "true")

/-- A page with two sections, 0 and 1, both registered with both observers;
each holds the skill bar given. -/
def twoSectionPage (bar : SkillBar) : Page :=
  { world := examplePage bar, sections := [0, 1], innerCards := fun _ => [],
    observed := [0, 1], windowObserved := some [0, 1] }

/-! ## Theorems: motion preference gate -/

theorem motionAllowed_envOf (prm : Bool) (items : String → Option String) :
    motionAllowed (envOf prm items)
      = .ok (!(prm || decide (items MOTION_KEY = some "true"))) := by
  cases prm <;> simp [motionAllowed, envOf, LocalStorage.getItem, bind, Except.bind]
  by_cases h : items MOTION_KEY = some "true" <;> simp [h]

/-- C1: for every OS signal and every content of the store, motionAllowed
returns false exactly when the OS signal is true or the string stored under
MOTION_KEY is "true", and true otherwise; when the OS signal is true it
returns false whatever the store holds, even when the store cannot be read. -/
theorem C1_motionAllowed_spec (prm : Bool) (items : String → Option String) :
    (motionAllowed (envOf prm items) = .ok false
        ↔ (prm = true ∨ items MOTION_KEY = some "true"))
    ∧ (motionAllowed (envOf prm items) = .ok true
        ↔ ¬ (prm = true ∨ items MOTION_KEY = some "true"))
    ∧ (∀ ls : LocalStorage,
        motionAllowed { prefersReducedMotion := true, localStorage := ls } = .ok false) := by
  refine ⟨?_, ?_, ?_⟩
  · rw [motionAllowed_envOf]
    cases prm <;> by_cases h : items MOTION_KEY = some "true" <;> simp [h]
  · rw [motionAllowed_envOf]
    cases prm <;> by_cases h : items MOTION_KEY = some "true" <;> simp [h]
  · intro ls
    simp [motionAllowed]

/-- C2 (counterexample): the OS signal is true and the override "false" is
stored, yet motionAllowed returns false: the stored "false" is not
authoritative. -/
theorem C2_counterexample :
    storedOverride (envOf true (putItem emptyItems MOTION_KEY "false")) = some "false"
    ∧ motionAllowed (envOf true (putItem emptyItems MOTION_KEY "false")) = .ok false
    ∧ motionAllowed (envOf true (putItem emptyItems MOTION_KEY "false")) ≠ .ok true := by
  refine ⟨rfl, rfl, ?_⟩
  intro h
  cases h

/-- C2 (amended): a stored "true" is authoritative, motionAllowed returns false
for every OS signal; a stored "false" is not, the result is then the negation
of the OS signal, as it is for every store whose override is not "true"
(absent included). -/
theorem C2_override_amended (prm : Bool) (items : String → Option String) :
    motionAllowed (envOf prm (putItem items MOTION_KEY "true")) = .ok false
    ∧ motionAllowed (envOf prm (putItem items MOTION_KEY "false")) = .ok (!prm)
    ∧ motionAllowed (envOf prm emptyItems) = .ok (!prm)
    ∧ motionAllowed (envOf prm items)
        = .ok (if items MOTION_KEY = some "true" then false else !prm) := by
  refine ⟨?_, ?_, ?_, ?_⟩
  · rw [motionAllowed_envOf]; simp [putItem]
  · rw [motionAllowed_envOf]; simp [putItem]
  · rw [motionAllowed_envOf]; simp [emptyItems]
  · rw [motionAllowed_envOf]
    by_cases h : items MOTION_KEY = some "true" <;> simp [h]

theorem motionToggleClick_envOf (prm : Bool) (items : String → Option String)
    (btn : Option ToggleButton) :
    ∃ btn1, motionToggleClick (envOf prm items) btn
      = .ok (envOf prm (putItem items MOTION_KEY
          (if items MOTION_KEY = some "true" then "false" else "true")), btn1) := by
  cases btn with
  | none =>
    refine ⟨none, ?_⟩
    by_cases h : items MOTION_KEY = some "true" <;>
      simp [motionToggleClick, envOf, LocalStorage.getItem, LocalStorage.setItem, bind,
        Except.bind, updateMotionToggleUI, boolToString, h]
  | some b =>
    cases prm <;> by_cases h : items MOTION_KEY = some "true" <;>
      simp [motionToggleClick, envOf, LocalStorage.getItem, LocalStorage.setItem, bind,
        Except.bind, updateMotionToggleUI, boolToString, h, putItem]

/-- C3: for every prior content of the store the click handler of the motion
toggle succeeds and leaves under MOTION_KEY the string "true" if the value was
not "true" before (absent, "false" or any other string) and "false" if it was
"true"; with the OS signal false, motionAllowed evaluated after one click is
the negation of its value before, and after a second click it is the value
before the first. -/
theorem C3_toggle_flips_override (prm : Bool) (items : String → Option String)
    (btn : Option ToggleButton) :
    ∃ env1 btn1 env2 btn2,
      motionToggleClick (envOf prm items) btn = .ok (env1, btn1)
      ∧ motionToggleClick env1 btn1 = .ok (env2, btn2)
      ∧ env1.prefersReducedMotion = prm ∧ env2.prefersReducedMotion = prm
      ∧ storedOverride env1
          = some (if items MOTION_KEY = some "true" then "false" else "true")
      ∧ (∃ b : Bool,
          motionAllowed { env1 with prefersReducedMotion := false } = .ok (!b)
          ∧ motionAllowed (envOf false items) = .ok b
          ∧ motionAllowed { env2 with prefersReducedMotion := false } = .ok b) := by
  obtain ⟨btn1, h1⟩ := motionToggleClick_envOf prm items btn
  obtain ⟨btn2, h2⟩ := motionToggleClick_envOf prm
    (putItem items MOTION_KEY (if items MOTION_KEY = some "true" then "false" else "true")) btn1
  refine ⟨_, btn1, _, btn2, h1, h2, rfl, rfl, ?_, ?_⟩
  · simp [storedOverride, envOf, putItem]
  · refine ⟨!(decide (items MOTION_KEY = some "true")), ?_, ?_, ?_⟩
    · show motionAllowed (envOf false _) = _
      rw [motionAllowed_envOf]
      by_cases h : items MOTION_KEY = some "true" <;> simp [h, putItem]
    · rw [motionAllowed_envOf]; simp
    · show motionAllowed (envOf false _) = _
      rw [motionAllowed_envOf]
      by_cases h : items MOTION_KEY = some "true" <;> simp [h, putItem]

/-- C4 (counterexample): with the OS signal false and the store unavailable,
motionAllowed throws instead of returning true, and updateMotionToggleUI
throws as well when the toggle button exists. -/
theorem C4_counterexample :
    motionAllowed { prefersReducedMotion := false, localStorage := .unavailable }
      = .error .securityError
    ∧ updateMotionToggleUI { prefersReducedMotion := false, localStorage := .unavailable }
        (some { ariaPressed := none, active := false })
      = .error .securityError := by
  exact ⟨rfl, rfl⟩

/-- C4 (amended): when the store is unavailable, motionAllowed and
updateMotionToggleUI finish without throwing exactly in the cases where they
do not read the store: with the OS signal true motionAllowed returns false and
the button is shown pressed, and without a toggle button updateMotionToggleUI
does nothing. With the OS signal false the exception of the read leaves both
functions. -/
theorem C4_unavailable_store_amended (prm : Bool) (btn : ToggleButton) :
    motionAllowed { prefersReducedMotion := prm, localStorage := .unavailable }
      = (if prm then .ok false else .error .securityError)
    ∧ updateMotionToggleUI { prefersReducedMotion := prm, localStorage := .unavailable }
        (some btn)
      = (if prm then .ok (some { ariaPressed := some "true", active := true })
         else .error .securityError)
    ∧ updateMotionToggleUI { prefersReducedMotion := prm, localStorage := .unavailable } none
      = .ok none := by
  cases prm <;> exact ⟨rfl, rfl, rfl⟩


/-! ## Theorems: skill percentage and the forEach callback -/

theorem parseInt_empty : parseInt "" = .nan := by rfl

theorem percentSource_of_parse (d : Option String) (s : String) (p : Int)
    (hs : d = some s) (hp : parseInt s = .int p) :
    jsOrDefault (jsOr d d) "0" = s := by
  subst hs
  have hne : s ≠ "" := by
    intro h
    rw [h, parseInt_empty] at hp
    cases hp
  simp [jsOr, jsOrDefault, hne]

theorem skillPercent_of_parse (bar : SkillBar) (s : String) (p : Int)
    (hs : bar.dataPercent = some s) (hp : parseInt s = .int p) :
    skillPercent bar = .int (max 0 (min 100 p)) := by
  unfold skillPercent
  rw [percentSource_of_parse _ s p hs hp, hp]
  simp only [Math.min, Math.max]
  congr 1

theorem animateBar_aria (allowMotion force : Bool) (i : Nat) (bar : SkillBar) :
    (animateBar allowMotion force i bar).bar.ariaValueNow
      = some (skillPercent bar).toJSString := by
  unfold animateBar
  simp only
  split
  · rfl
  · split
    · split <;> rfl
    · split <;> rfl

theorem animateBar_dataPercent (allowMotion force : Bool) (i : Nat) (bar : SkillBar) :
    (animateBar allowMotion force i bar).bar.dataPercent = bar.dataPercent := by
  unfold animateBar
  simp only
  split
  · rfl
  · split
    · split <;> rfl
    · split <;> rfl

theorem animateBar_label_isSome (allowMotion force : Bool) (i : Nat) (bar : SkillBar) :
    (animateBar allowMotion force i bar).bar.label.isSome = bar.label.isSome := by
  unfold animateBar
  simp only
  split
  · simp only [showFinal]
    cases bar.label with
    | none => rfl
    | some t => simp only []; split <;> rfl
  · split
    · split
      · rfl
      · simp
    · split <;> rfl


theorem animateBar_fill_isSome (allowMotion force : Bool) (i : Nat) (bar : SkillBar) :
    (animateBar allowMotion force i bar).bar.fill.isSome = bar.fill.isSome := by
  unfold animateBar
  simp only
  split
  · simp only [showFinal]
    cases bar.fill with
    | none => rfl
    | some t => simp only []; split <;> rfl
  · split
    · split
      · simp [*]
      · simp [*]
    · split <;> rfl

theorem animateBar_calls_still (force : Bool) (i : Nat) (bar : SkillBar) :
    (animateBar false force i bar).calls = [] := by
  unfold animateBar
  simp only
  split
  · rfl
  · split
    · split <;> rfl
    · rename_i h; simp at h

theorem animateBar_thrown_motion (force : Bool) (i : Nat) (bar : SkillBar) :
    (animateBar true force i bar).thrown = none := by
  unfold animateBar
  simp only
  split
  · rfl
  · split
    · rename_i h; simp at h
    · split <;> rfl

theorem animateBar_thrown_fill (allowMotion force : Bool) (i : Nat) (bar : SkillBar)
    (hf : bar.fill.isSome = true) :
    (animateBar allowMotion force i bar).thrown = none := by
  unfold animateBar
  simp only
  split
  · rfl
  · split
    · split
      · rename_i h; rw [h] at hf; cases hf
      · rfl
    · split <;> rfl

theorem animateBar_animated_keep (allowMotion : Bool) (i : Nat) (bar : SkillBar)
    (h : bar.animated = some "true") :
    (animateBar allowMotion false i bar).bar.animated = some "true"
    ∧ (animateBar allowMotion false i bar).calls = []
    ∧ (animateBar allowMotion false i bar).thrown = none
    ∧ (animateBar allowMotion false i bar).bar.label
        = bar.label.map (fun t => if jsTrim t = "0%" then percentText (skillPercent bar) else t)
    ∧ (animateBar allowMotion false i bar).bar.fill
        = bar.fill.map (fun f => if f.width = "" then f.setWidthPercent (skillPercent bar) else f) := by
  unfold animateBar
  simp only [h, Bool.not_false, decide_True, Bool.and_self, if_true, showFinal]
  refine ⟨trivial, trivial, trivial, ?_, ?_⟩
  · cases bar.label with
    | none => rfl
    | some t => simp only [Option.map]; split <;> rfl
  · cases bar.fill with
    | none => rfl
    | some t => simp only [Option.map]; split <;> rfl

theorem animateBar_addresses (allowMotion force : Bool) (j i : Nat) (bar : SkillBar)
    (h : j ≠ i) (c : GsapCall) (hc : c ∈ (animateBar allowMotion force j bar).calls) :
    c.addressesBar i = false := by
  unfold animateBar at hc
  simp only at hc
  split at hc
  · cases hc
  · split at hc
    · split at hc <;> cases hc
    · split at hc <;> simp at hc <;> rcases hc with rfl | rfl | rfl <;>
        simp [GsapCall.addressesBar, h]

/-! ### The forEach loop -/

theorem animateSkillBar_bars_self (a f : Bool) (i : Nat) (w : World) :
    (animateSkillBar a f (some i) w).world.bars i = (animateBar a f i (w.bars i)).bar := by
  simp [animateSkillBar, World.setBar, World.call]

theorem animateSkillBar_bars_other (a f : Bool) (e : Option Nat) (i : Nat) (w : World)
    (h : e ≠ some i) :
    (animateSkillBar a f e w).world.bars i = w.bars i := by
  cases e with
  | none => rfl
  | some j =>
    have hji : i ≠ j := fun hij => h (by rw [hij])
    simp [animateSkillBar, World.setBar, World.call, hji]

theorem forEachEntry_cons (f : Option Nat → World → Outcome) (e : Option Nat)
    (l : List (Option Nat)) (w : World) :
    forEachEntry f (e :: l) w
      = (if (f e w).thrown = none then forEachEntry f l (f e w).world else f e w) := by
  simp only [forEachEntry]
  rcases hfe : f e w with ⟨w1, t⟩
  cases t <;> simp

theorem forEach_bars_other (a f : Bool) (i : Nat) (l : List (Option Nat)) :
    ∀ w : World, some i ∉ l →
      (forEachEntry (animateSkillBar a f) l w).world.bars i = w.bars i := by
  induction l with
  | nil => intro w _; rfl
  | cons e l ih =>
    intro w h
    have he : e ≠ some i := fun hh => h (by simp [hh])
    have hl : some i ∉ l := fun hh => h (by simp [hh])
    rw [forEachEntry_cons]
    split
    · rw [ih _ hl, animateSkillBar_bars_other a f e i w he]
    · exact animateSkillBar_bars_other a f e i w he

theorem forEach_bars_self (a f : Bool) (i : Nat) (l : List (Option Nat)) :
    ∀ w : World, l.Nodup → some i ∈ l →
      (forEachEntry (animateSkillBar a f) l w).thrown = none →
      (forEachEntry (animateSkillBar a f) l w).world.bars i
        = (animateBar a f i (w.bars i)).bar := by
  induction l with
  | nil => intro w _ h; cases h
  | cons e l ih =>
    intro w hnd hmem
    rw [forEachEntry_cons]
    have hnd2 := List.nodup_cons.mp hnd
    split
    · intro hth
      by_cases he : e = some i
      · subst he
        rw [forEach_bars_other a f i l _ hnd2.1, animateSkillBar_bars_self]
      · have hmem2 : some i ∈ l := by
          rcases List.mem_cons.mp hmem with h | h
          · exact absurd h.symm he
          · exact h
        rw [ih _ hnd2.2 hmem2 hth, animateSkillBar_bars_other a f e i w he]
    · intro hth
      rename_i hne
      exact absurd hth hne

theorem animateSkillBar_gsap (a f : Bool) (e : Option Nat) (w : World) :
    ∃ cs, (animateSkillBar a f e w).world.gsap = w.gsap ++ cs
      ∧ (∀ i, e = some i → cs = (animateBar a f i (w.bars i)).calls)
      ∧ (e = none → cs = []) := by
  cases e with
  | none => exact ⟨[], by simp [animateSkillBar], by simp, by simp⟩
  | some j =>
    refine ⟨(animateBar a f j (w.bars j)).calls, ?_, ?_, ?_⟩
    · simp [animateSkillBar, World.setBar, World.call]
    · intro i hi; cases hi; rfl
    · intro h; cases h

theorem animateSkillBar_thrown (a f : Bool) (e : Option Nat) (w : World) :
    (animateSkillBar a f e w).thrown
      = match e with
        | none => none
        | some i => (animateBar a f i (w.bars i)).thrown := by
  cases e <;> rfl

theorem forEach_gsap_still (f : Bool) (l : List (Option Nat)) :
    ∀ w : World, (forEachEntry (animateSkillBar false f) l w).world.gsap = w.gsap := by
  induction l with
  | nil => intro w; rfl
  | cons e l ih =>
    intro w
    have hstep : (animateSkillBar false f e w).world.gsap = w.gsap := by
      obtain ⟨cs, h1, h2, h3⟩ := animateSkillBar_gsap false f e w
      cases e with
      | none => rw [h1, h3 rfl]; simp
      | some j => rw [h1, h2 j rfl, animateBar_calls_still]; simp
    rw [forEachEntry_cons]
    split
    · rw [ih, hstep]
    · exact hstep

theorem forEach_gsap_extends (a f : Bool) (l : List (Option Nat)) :
    ∀ w : World, ∃ cs, (forEachEntry (animateSkillBar a f) l w).world.gsap = w.gsap ++ cs := by
  induction l with
  | nil => intro w; exact ⟨[], by simp [forEachEntry]⟩
  | cons e l ih =>
    intro w
    obtain ⟨cs, h1, _, _⟩ := animateSkillBar_gsap a f e w
    rw [forEachEntry_cons]
    split
    · obtain ⟨cs2, h2⟩ := ih (animateSkillBar a f e w).world
      exact ⟨cs ++ cs2, by rw [h2, h1, List.append_assoc]⟩
    · exact ⟨cs, h1⟩

theorem forEach_thrown_motion (f : Bool) (l : List (Option Nat)) :
    ∀ w : World, (forEachEntry (animateSkillBar true f) l w).thrown = none := by
  induction l with
  | nil => intro w; rfl
  | cons e l ih =>
    intro w
    have hstep : (animateSkillBar true f e w).thrown = none := by
      rw [animateSkillBar_thrown]
      cases e with
      | none => rfl
      | some j => exact animateBar_thrown_motion f j _
    rw [forEachEntry_cons, if_pos hstep]
    exact ih _

theorem animateSkillBar_fill_isSome (a f : Bool) (e : Option Nat) (k : Nat) (w : World) :
    ((animateSkillBar a f e w).world.bars k).fill.isSome = (w.bars k).fill.isSome := by
  by_cases he : e = some k
  · subst he
    rw [animateSkillBar_bars_self, animateBar_fill_isSome]
  · rw [animateSkillBar_bars_other a f e k w he]

theorem forEach_thrown_fill (a f : Bool) (l : List (Option Nat)) :
    ∀ w : World, (∀ j, some j ∈ l → (w.bars j).fill.isSome = true) →
      (forEachEntry (animateSkillBar a f) l w).thrown = none := by
  induction l with
  | nil => intro w _; rfl
  | cons e l ih =>
    intro w h
    have hstep : (animateSkillBar a f e w).thrown = none := by
      rw [animateSkillBar_thrown]
      cases e with
      | none => rfl
      | some j => exact animateBar_thrown_fill a f j _ (h j (by simp))
    rw [forEachEntry_cons, if_pos hstep]
    apply ih
    intro j hj
    rw [animateSkillBar_fill_isSome]
    exact h j (by simp [hj])

theorem forEach_gsap_calls (a f : Bool) (i : Nat) (l : List (Option Nat)) :
    ∀ w : World, some i ∈ l →
      (forEachEntry (animateSkillBar a f) l w).thrown = none →
      ∃ pre post, (forEachEntry (animateSkillBar a f) l w).world.gsap
        = w.gsap ++ pre ++ (animateBar a f i (w.bars i)).calls ++ post := by
  induction l with
  | nil => intro w h; cases h
  | cons e l ih =>
    intro w hmem
    rw [forEachEntry_cons]
    obtain ⟨cs, h1, h2, _⟩ := animateSkillBar_gsap a f e w
    split
    · intro hth
      by_cases he : e = some i
      · obtain ⟨cs2, h3⟩ := forEach_gsap_extends a f l (animateSkillBar a f e w).world
        refine ⟨[], cs2, ?_⟩
        rw [h3, h1, h2 i he]
        simp
      · have hmem2 : some i ∈ l := by
          rcases List.mem_cons.mp hmem with h | h
          · exact absurd h.symm he
          · exact h
        obtain ⟨pre, post, h3⟩ := ih _ hmem2 hth
        refine ⟨cs ++ pre, post, ?_⟩
        rw [h3, h1, animateSkillBar_bars_other a f e i w he]
        simp [List.append_assoc]
    · intro hth
      rename_i hne
      exact absurd hth hne

theorem forEach_animated_quiet (a : Bool) (i : Nat) (l : List (Option Nat)) :
    ∀ w : World, (w.bars i).animated = some "true" →
      ((forEachEntry (animateSkillBar a false) l w).world.bars i).animated = some "true"
      ∧ ∃ cs, (forEachEntry (animateSkillBar a false) l w).world.gsap = w.gsap ++ cs
          ∧ ∀ c ∈ cs, c.addressesBar i = false := by
  induction l with
  | nil =>
    intro w h
    exact ⟨h, [], by simp [forEachEntry], by simp⟩
  | cons e l ih =>
    intro w h
    obtain ⟨cs, h1, h2, h3⟩ := animateSkillBar_gsap a false e w
    have hstep : ((animateSkillBar a false e w).world.bars i).animated = some "true"
        ∧ ∀ c ∈ cs, c.addressesBar i = false := by
      by_cases he : e = some i
      · subst he
        rw [animateSkillBar_bars_self]
        have hk := animateBar_animated_keep a i (w.bars i) h
        refine ⟨hk.1, ?_⟩
        rw [h2 i rfl, hk.2.1]
        simp
      · rw [animateSkillBar_bars_other a false e i w he]
        refine ⟨h, ?_⟩
        cases e with
        | none => rw [h3 rfl]; simp
        | some j =>
          have hji : j ≠ i := fun hh => he (by rw [hh])
          rw [h2 j rfl]
          intro c hc
          exact animateBar_addresses a false j i _ hji c hc
    rw [forEachEntry_cons]
    split
    · obtain ⟨hA, cs2, hB, hC⟩ := ih (animateSkillBar a false e w).world hstep.1
      refine ⟨hA, cs ++ cs2, by rw [hB, h1, List.append_assoc], ?_⟩
      intro c hc
      rcases List.mem_append.mp hc with hc | hc
      · exact hstep.2 c hc
      · exact hC c hc
    · exact ⟨hstep.1, cs, h1, hstep.2⟩

theorem animateSkillBars_eq (env : Env) (a : Bool) (h : motionAllowed env = .ok a)
    (l : List (Option Nat)) (f : Bool) (w : World) :
    animateSkillBars env l f w = forEachEntry (animateSkillBar a f) l w := by
  unfold animateSkillBars
  cases l with
  | nil => rfl
  | cons e l => simp [h]

/-! ## Theorems: skill bars -/

theorem animateSkillBars_ok_of_thrown_none (env : Env) (l : List (Option Nat)) (f : Bool)
    (w : World) (hne : l ≠ []) (h : (animateSkillBars env l f w).thrown = none) :
    ∃ a, motionAllowed env = .ok a := by
  unfold animateSkillBars at h
  cases l with
  | nil => exact absurd rfl hne
  | cons e l =>
    cases hm : motionAllowed env with
    | error err => simp [hm] at h
    | ok a => exact ⟨a, rfl⟩

/-- C5: for a skill bar whose data-percent attribute parses as the integer p,
the percentage computed on line 324 is max(0, min(100, p)); the forEach
callback writes its decimal text to aria-valuenow on every path, and so does a
call of animateSkillBars that reaches the bar; the value lies in [0, 100], is
0 for negative p, 100 for p above 100 and p itself in between. -/
theorem C5_percent_clamped (allowMotion force : Bool) (i : Nat) (w : World) (s : String)
    (p : Int) (hs : (w.bars i).dataPercent = some s) (hp : parseInt s = .int p) :
    skillPercent (w.bars i) = .int (max 0 (min 100 p))
    ∧ ((animateSkillBar allowMotion force (some i) w).world.bars i).ariaValueNow
        = some (toString (max 0 (min 100 p)))
    ∧ (∀ (env : Env) (bars : List (Option Nat)), bars.Nodup → some i ∈ bars →
        (animateSkillBars env bars force w).thrown = none →
        ((animateSkillBars env bars force w).world.bars i).ariaValueNow
          = some (toString (max 0 (min 100 p))))
    ∧ (0 ≤ max 0 (min 100 p) ∧ max 0 (min 100 p) ≤ 100)
    ∧ (p < 0 → max 0 (min 100 p) = 0)
    ∧ (100 < p → max 0 (min 100 p) = 100)
    ∧ (0 ≤ p → p ≤ 100 → max 0 (min 100 p) = p) := by
  have hpct := skillPercent_of_parse (w.bars i) s p hs hp
  refine ⟨hpct, ?_, ?_, ⟨?_, ?_⟩, ?_, ?_, ?_⟩
  · rw [animateSkillBar_bars_self, animateBar_aria, hpct]; rfl
  · intro env bars hnd hmem hth
    have hne : bars ≠ [] := by intro h; rw [h] at hmem; cases hmem
    obtain ⟨a, ha⟩ := animateSkillBars_ok_of_thrown_none env bars force w hne hth
    rw [animateSkillBars_eq env a ha] at hth ⊢
    rw [forEach_bars_self a force i bars w hnd hmem hth, animateBar_aria, hpct]; rfl
  · omega
  · omega
  · intro h; omega
  · intro h; omega
  · intro h1 h2; omega

/-- C5 (witness): data-percent 150 parses as 150 and is clamped to 100, which
is what aria-valuenow receives. -/
theorem C5_percent_clamped_witness :
    parseInt "150" = .int 150
    ∧ skillPercent ((examplePage (exampleBar (some "150") true)).bars 0) = .int 100
    ∧ ((animateSkillBar true false (some 0)
          (examplePage (exampleBar (some "150") true))).world.bars 0).ariaValueNow
        = some "100" :=
  ⟨rfl,
   (C5_percent_clamped true false 0 (examplePage (exampleBar (some "150") true)) "150" 150
      rfl rfl).1,
   (C5_percent_clamped true false 0 (examplePage (exampleBar (some "150") true)) "150" 150
      rfl rfl).2.1⟩

/-- C6 (the code at the failing input): data-percent abc is a non-empty string,
so the default '0' is not taken, parseInt gives NaN and the clamp passes NaN
on: aria-valuenow receives NaN and the label NaN%, and with motion allowed a
count-up to NaN is requested. A missing or empty attribute does give 0. -/
theorem C6_non_numeric_percent_is_NaN :
    parseInt "abc" = .nan
    ∧ skillPercent (exampleBar (some "abc") true) = .nan
    ∧ ((animateSkillBars reducedEnv [some 0] false
          (examplePage (exampleBar (some "abc") true))).world.bars 0).ariaValueNow = some "NaN"
    ∧ ((animateSkillBars reducedEnv [some 0] false
          (examplePage (exampleBar (some "abc") true))).world.bars 0).label = some "NaN%"
    ∧ (animateSkillBars motionEnv [some 0] false
          (examplePage (exampleBar (some "abc") true))).world.gsap
        = [.killTweensOfFill 0, .fillTo 0 "NaN%", .countUp 0 .nan]
    ∧ skillPercent (exampleBar none true) = .int 0
    ∧ skillPercent (exampleBar (some "") true) = .int 0 := by
  refine ⟨rfl, rfl, rfl, rfl, rfl, rfl, rfl⟩

theorem percentText_int (p : Int) : percentText (.int p) = toString p ++ "%" := rfl

theorem setWidthPercent_int (f : Fill) (p : Int) (h : 0 ≤ p) :
    f.setWidthPercent (.int p) = { width := toString p ++ "%" } := by
  simp [Fill.setWidthPercent, h, percentText_int]

theorem animateBar_snap (force : Bool) (i : Nat) (bar : SkillBar) (f : Fill)
    (h : force = true ∨ bar.animated ≠ some "true") (hf : bar.fill = some f) :
    (animateBar false force i bar).bar.fill = some (f.setWidthPercent (skillPercent bar))
    ∧ (animateBar false force i bar).bar.label
        = bar.label.map (fun _ => percentText (skillPercent bar))
    ∧ (animateBar false force i bar).bar.animated = some "true" := by
  have hg : (!force && decide (bar.animated = some "true")) = false := by
    rcases h with h | h
    · simp [h]
    · simp [h]
  unfold animateBar
  simp only [hg, hf]
  simp

theorem animateBar_tween (force : Bool) (i : Nat) (bar : SkillBar)
    (h : force = true ∨ bar.animated ≠ some "true") (hl : bar.label.isSome = true) :
    (animateBar true force i bar).calls
      = [.killTweensOfFill i, .fillTo i (percentText (skillPercent bar)),
         .countUp i (skillPercent bar)] := by
  have hg : (!force && decide (bar.animated = some "true")) = false := by
    rcases h with h | h
    · simp [h]
    · simp [h]
  obtain ⟨t, ht⟩ := Option.isSome_iff_exists.mp hl
  unfold animateBar
  simp only [hg, ht]
  simp

theorem countUpOnUpdate_label_isSome (i k : Nat) (r : JSNumber) (w : World) :
    ((countUpOnUpdate i r w).bars k).label.isSome = (w.bars k).label.isSome := by
  unfold countUpOnUpdate World.setBar SkillBar.setLabel
  by_cases h : k = i
  · subst h; simp
  · simp [h]

theorem frames_label_isSome (i : Nat) (frames : List JSNumber) :
    ∀ w : World, ((frames.foldl (fun v r => countUpOnUpdate i r v) w).bars i).label.isSome
      = (w.bars i).label.isSome := by
  induction frames with
  | nil => intro w; rfl
  | cons r frames ih =>
    intro w
    rw [List.foldl_cons, ih, countUpOnUpdate_label_isSome]

theorem countUpOnComplete_bar (i : Nat) (pct : JSNumber) (w : World)
    (hl : (w.bars i).label.isSome = true) :
    ((countUpOnComplete i pct w).bars i).label = some (percentText pct)
    ∧ ((countUpOnComplete i pct w).bars i).animated = some "true" := by
  obtain ⟨t, ht⟩ := Option.isSome_iff_exists.mp hl
  simp [countUpOnComplete, World.setBar, SkillBar.setLabel, ht]

theorem animateBar_tween_nolabel (force : Bool) (i : Nat) (bar : SkillBar)
    (h : force = true ∨ bar.animated ≠ some "true") (hl : bar.label = none) :
    (animateBar true force i bar).calls
      = [.killTweensOfFill i, .fillTo i (percentText (skillPercent bar))]
    ∧ (animateBar true force i bar).bar.animated = some "true" := by
  have hg : (!force && decide (bar.animated = some "true")) = false := by
    rcases h with h | h
    · simp [h]
    · simp [h]
  unfold animateBar
  simp only [hg, hl]
  simp

theorem forEach_gsap_others (a f : Bool) (i : Nat) (l : List (Option Nat)) :
    ∀ w : World, some i ∉ l →
      ∃ cs, (forEachEntry (animateSkillBar a f) l w).world.gsap = w.gsap ++ cs
        ∧ ∀ c ∈ cs, c.addressesBar i = false := by
  induction l with
  | nil => intro w _; exact ⟨[], by simp [forEachEntry], by simp⟩
  | cons e l ih =>
    intro w h
    have he : e ≠ some i := fun hh => h (by simp [hh])
    have hl : some i ∉ l := fun hh => h (by simp [hh])
    obtain ⟨cs, h1, h2, h3⟩ := animateSkillBar_gsap a f e w
    have hcs : ∀ c ∈ cs, c.addressesBar i = false := by
      cases e with
      | none => rw [h3 rfl]; simp
      | some j =>
        have hji : j ≠ i := fun hh => he (by rw [hh])
        rw [h2 j rfl]
        intro c hc
        exact animateBar_addresses a f j i _ hji c hc
    rw [forEachEntry_cons]
    split
    · obtain ⟨cs2, h4, h5⟩ := ih (animateSkillBar a f e w).world hl
      refine ⟨cs ++ cs2, by rw [h4, h1, List.append_assoc], ?_⟩
      intro c hc
      rcases List.mem_append.mp hc with hc | hc
      · exact hcs c hc
      · exact h5 c hc
    · exact ⟨cs, h1, hcs⟩

theorem forEach_gsap_calls_nodup (a f : Bool) (i : Nat) (l : List (Option Nat)) :
    ∀ w : World, l.Nodup → some i ∈ l →
      (forEachEntry (animateSkillBar a f) l w).thrown = none →
      ∃ pre post, (forEachEntry (animateSkillBar a f) l w).world.gsap
          = w.gsap ++ pre ++ (animateBar a f i (w.bars i)).calls ++ post
        ∧ (∀ c ∈ pre, c.addressesBar i = false)
        ∧ (∀ c ∈ post, c.addressesBar i = false) := by
  induction l with
  | nil => intro w _ h; cases h
  | cons e l ih =>
    intro w hnd hmem
    have hnd2 := List.nodup_cons.mp hnd
    rw [forEachEntry_cons]
    obtain ⟨cs, h1, h2, h3⟩ := animateSkillBar_gsap a f e w
    split
    · intro hth
      by_cases he : e = some i
      · subst he
        obtain ⟨cs2, h4, h5⟩ := forEach_gsap_others a f i l
          (animateSkillBar a f (some i) w).world hnd2.1
        refine ⟨[], cs2, ?_, by simp, h5⟩
        rw [h4, h1, h2 i rfl]
        simp
      · have hmem2 : some i ∈ l := by
          rcases List.mem_cons.mp hmem with h | h
          · exact absurd h.symm he
          · exact h
        obtain ⟨pre, post, h4, h5, h6⟩ := ih _ hnd2.2 hmem2 hth
        have hcs : ∀ c ∈ cs, c.addressesBar i = false := by
          cases e with
          | none => rw [h3 rfl]; simp
          | some j =>
            have hji : j ≠ i := fun hh => he (by rw [hh])
            rw [h2 j rfl]
            intro c hc
            exact animateBar_addresses a f j i _ hji c hc
        refine ⟨cs ++ pre, post, ?_, ?_, h6⟩
        · rw [h4, h1, animateSkillBar_bars_other a f e i w he]
          simp [List.append_assoc]
        · intro c hc
          rcases List.mem_append.mp hc with hc | hc
          · exact hcs c hc
          · exact h5 c hc
    · intro hth
      rename_i hne
      exact absurd hth hne

/-- C7 (counterexample): a skill bar with data-percent 73 that has no percent
label and is not marked animated; with motion allowed animateSkillBars asks
for the fill tween only, no count-up is requested, and the bar is marked
animated at once. -/
theorem C7_counterexample :
    skillPercent ((examplePage (exampleBar (some "73") false)).bars 0) = .int 73
    ∧ ((examplePage (exampleBar (some "73") false)).bars 0).animated = none
    ∧ motionAllowed motionEnv = .ok true
    ∧ (animateSkillBars motionEnv [some 0] false
          (examplePage (exampleBar (some "73") false))).world.gsap
        = [.killTweensOfFill 0, .fillTo 0 "73%"]
    ∧ GsapCall.countUp 0 (.int 73) ∉ (animateSkillBars motionEnv [some 0] false
          (examplePage (exampleBar (some "73") false))).world.gsap
    ∧ ((animateSkillBars motionEnv [some 0] false
          (examplePage (exampleBar (some "73") false))).world.bars 0).label = none
    ∧ ((animateSkillBars motionEnv [some 0] false
          (examplePage (exampleBar (some "73") false))).world.bars 0).animated
        = some "true" := by
  refine ⟨rfl, rfl, rfl, rfl, ?_, rfl, rfl⟩
  have h : (animateSkillBars motionEnv [some 0] false
      (examplePage (exampleBar (some "73") false))).world.gsap
        = [.killTweensOfFill 0, .fillTo 0 "73%"] := rfl
  rw [h]
  decide

/-- C7 (amended): for a skill bar that is not marked animated and whose
data-percent parses as p in [0, 100], in a call of animateSkillBars without
force on a duplicate-free array containing it.
(1) With motion disallowed and every bar of the array having a fill element,
the call returns with fill width p%, the bar marked animated and the library
log untouched.
(2) With motion disallowed, a fill element and a percent label, the call on
the bar alone returns with the label reading p%.
(3) With motion allowed and a percent label, the call returns having requested
the fill tween and a count-up from 0 to p; running the completion callback of
that count-up, after any update frames, leaves the label at p% and the bar
marked animated.
(4) With motion allowed and no percent label, the call returns with the bar
marked animated, and the only library calls that address the bar are the kill
of the tweens of its fill and the fill tween to p%: no count-up. -/
theorem C7_settles_amended (env : Env) (bars : List (Option Nat)) (i : Nat) (w : World)
    (s : String) (p : Int) (hnd : bars.Nodup) (hmem : some i ∈ bars)
    (hs : (w.bars i).dataPercent = some s) (hp : parseInt s = .int p)
    (h0 : 0 ≤ p) (h100 : p ≤ 100)
    (hna : (w.bars i).animated ≠ some "true") :
    (motionAllowed env = .ok false →
      (∀ j, some j ∈ bars → (w.bars j).fill.isSome = true) →
        (animateSkillBars env bars false w).thrown = none
        ∧ ((animateSkillBars env bars false w).world.bars i).fill
            = some { width := toString p ++ "%" }
        ∧ ((animateSkillBars env bars false w).world.bars i).animated = some "true"
        ∧ (animateSkillBars env bars false w).world.gsap = w.gsap)
    ∧ (motionAllowed env = .ok false → (w.bars i).fill.isSome = true →
        ∀ t : String, (w.bars i).label = some t →
          (animateSkillBars env [some i] false w).thrown = none
          ∧ ((animateSkillBars env [some i] false w).world.bars i).label
              = some (toString p ++ "%"))
    ∧ (motionAllowed env = .ok true → ∀ t : String, (w.bars i).label = some t →
        (animateSkillBars env bars false w).thrown = none
        ∧ (∃ pre post, (animateSkillBars env bars false w).world.gsap
            = w.gsap ++ pre
              ++ [.killTweensOfFill i, .fillTo i (toString p ++ "%"), .countUp i (.int p)]
              ++ post)
        ∧ ∀ (w2 : World) (frames : List JSNumber), (w2.bars i).label.isSome = true →
            (((GsapCall.countUp i (.int p)).onComplete
                (frames.foldl (fun v r => countUpOnUpdate i r v) w2)).bars i).label
              = some (toString p ++ "%")
            ∧ (((GsapCall.countUp i (.int p)).onComplete
                (frames.foldl (fun v r => countUpOnUpdate i r v) w2)).bars i).animated
              = some "true")
    ∧ (motionAllowed env = .ok true → (w.bars i).label = none →
        (animateSkillBars env bars false w).thrown = none
        ∧ ((animateSkillBars env bars false w).world.bars i).animated = some "true"
        ∧ ∃ pre post, (animateSkillBars env bars false w).world.gsap
            = w.gsap ++ pre ++ [.killTweensOfFill i, .fillTo i (toString p ++ "%")] ++ post
          ∧ (∀ c ∈ pre, c.addressesBar i = false)
          ∧ (∀ c ∈ post, c.addressesBar i = false)) := by
  have hpct : skillPercent (w.bars i) = .int p := by
    rw [skillPercent_of_parse (w.bars i) s p hs hp]
    congr 1
    omega
  refine ⟨?_, ?_, ?_, ?_⟩
  · intro hm hfill
    rw [animateSkillBars_eq env false hm]
    have hth := forEach_thrown_fill false false bars w hfill
    obtain ⟨f, hf⟩ := Option.isSome_iff_exists.mp (hfill i hmem)
    have hsnap := animateBar_snap false i (w.bars i) f (Or.inr hna) hf
    rw [forEach_bars_self false false i bars w hnd hmem hth, hpct] at *
    refine ⟨hth, ?_, hsnap.2.2, forEach_gsap_still false bars w⟩
    rw [hsnap.1, setWidthPercent_int f p h0]
  · intro hm hfill t hl
    rw [animateSkillBars_eq env false hm]
    have hth := forEach_thrown_fill false false [some i] w
      (fun j hj => by simp at hj; rw [hj]; exact hfill)
    obtain ⟨f, hf⟩ := Option.isSome_iff_exists.mp hfill
    have hsnap := animateBar_snap false i (w.bars i) f (Or.inr hna) hf
    refine ⟨hth, ?_⟩
    rw [forEach_bars_self false false i [some i] w (by simp) (by simp) hth, hsnap.2.1, hl,
      hpct]
    rfl
  · intro hm t hl
    rw [animateSkillBars_eq env true hm]
    have hth := forEach_thrown_motion false bars w
    refine ⟨hth, ?_, ?_⟩
    · obtain ⟨pre, post, h⟩ := forEach_gsap_calls true false i bars w hmem hth
      refine ⟨pre, post, ?_⟩
      rw [h, animateBar_tween false i (w.bars i) (Or.inr hna) (by rw [hl]; rfl), hpct]
      rfl
    · intro w2 frames hl2
      have hl3 := frames_label_isSome i frames w2
      rw [hl2] at hl3
      exact countUpOnComplete_bar i (.int p) _ hl3
  · intro hm hl
    rw [animateSkillBars_eq env true hm]
    have hth := forEach_thrown_motion false bars w
    have hnl := animateBar_tween_nolabel false i (w.bars i) (Or.inr hna) hl
    refine ⟨hth, ?_, ?_⟩
    · rw [forEach_bars_self true false i bars w hnd hmem hth]
      exact hnl.2
    · obtain ⟨pre, post, h, h1, h2⟩ := forEach_gsap_calls_nodup true false i bars w hnd hmem hth
      refine ⟨pre, post, ?_, h1, h2⟩
      rw [h, hnl.1, hpct]
      rfl

/-- C7 (witness): data-percent 42 under the OS signal true gives label and
fill 42% when the call returns; data-percent 73 with motion allowed ends at
73% after an update frame that wrote 72% and the completion callback; a bar
without a label is marked animated by the call. -/
theorem C7_settles_amended_witness :
    ((animateSkillBars reducedEnv [some 0] false
        (examplePage (exampleBar (some "42") true))).world.bars 0).label = some "42%"
    ∧ ((animateSkillBars reducedEnv [some 0] false
        (examplePage (exampleBar (some "42") true))).world.bars 0).fill
        = some { width := "42%" }
    ∧ (((GsapCall.countUp 0 (.int 73)).onComplete
          (countUpOnUpdate 0 (.int 72) (animateSkillBars motionEnv [some 0] false
            (examplePage (exampleBar (some "73") true))).world)).bars 0).label
        = some "73%"
    ∧ ((animateSkillBars motionEnv [some 0] false
        (examplePage (exampleBar (some "73") false))).world.bars 0).animated
        = some "true" :=
  have h42 := C7_settles_amended reducedEnv [some 0] 0
    (examplePage (exampleBar (some "42") true)) "42" 42
    (by simp) (by simp) rfl rfl (by decide) (by decide) (by simp [examplePage, exampleBar])
  have h73 := C7_settles_amended motionEnv [some 0] 0
    (examplePage (exampleBar (some "73") true)) "73" 73
    (by simp) (by simp) rfl rfl (by decide) (by decide) (by simp [examplePage, exampleBar])
  have h73n := C7_settles_amended motionEnv [some 0] 0
    (examplePage (exampleBar (some "73") false)) "73" 73
    (by simp) (by simp) rfl rfl (by decide) (by decide) (by simp [examplePage, exampleBar])
  ⟨(h42.2.1 rfl rfl "0%" rfl).2, (h42.1 rfl (fun _ _ => rfl)).2.1,
   ((h73.2.2.1 rfl "0%" rfl).2.2 (animateSkillBars motionEnv [some 0] false
      (examplePage (exampleBar (some "73") true))).world [.int 72] rfl).1,
   (h73n.2.2.2 rfl rfl).2.1⟩

/-- C8 (counterexample): a bar marked animated whose label reads 0% and whose
fill has no width is rewritten by a call without force: label and fill become
80%. The same happens to the fill of a bar without a label between its first
call, which marks it animated at once, and a second call. -/
theorem C8_counterexample :
    ((examplePage staleBar).bars 0).animated = some "true"
    ∧ ((examplePage staleBar).bars 0).label = some "0%"
    ∧ ((animateSkillBars motionEnv [some 0] false (examplePage staleBar)).world.bars 0).label
        = some "80%"
    ∧ ((examplePage staleBar).bars 0).fill = some { width := "" }
    ∧ ((animateSkillBars motionEnv [some 0] false (examplePage staleBar)).world.bars 0).fill
        = some { width := "80%" }
    ∧ ((animateSkillBars motionEnv [some 0] false
          (examplePage (exampleBar (some "80") false))).world.bars 0).animated = some "true"
    ∧ ((animateSkillBars motionEnv [some 0] false
          (examplePage (exampleBar (some "80") false))).world.bars 0).fill
        = some { width := "" }
    ∧ ((animateSkillBars motionEnv [some 0] false
          (animateSkillBars motionEnv [some 0] false
            (examplePage (exampleBar (some "80") false))).world).world.bars 0).fill
        = some { width := "80%" } := by
  refine ⟨rfl, rfl, rfl, rfl, rfl, rfl, rfl, rfl⟩

/-- C8 (amended): for a skill bar already marked animated, a call of
animateSkillBars without force makes no library call that addresses the bar
and leaves the animated flag at true, on every array and also when the call
throws. When the call returns, on a duplicate-free array containing the bar,
the fill width is as before unless it is empty, in which case pct% is assigned
to it. When motionAllowed returns a value, the call on the bar alone returns,
and the label text is then as before unless its trimmed text is 0%, in which
case it is pct%. A call made after the completion callback of a count-up has
run is a call on a bar marked animated. -/
theorem C8_already_animated_amended (env : Env) (bars : List (Option Nat)) (i : Nat)
    (w : World) (han : (w.bars i).animated = some "true") :
    ((animateSkillBars env bars false w).world.bars i).animated = some "true"
    ∧ (∃ cs, (animateSkillBars env bars false w).world.gsap = w.gsap ++ cs
        ∧ ∀ c ∈ cs, c.addressesBar i = false)
    ∧ (animateSkillBars env [some i] false w).world.gsap = w.gsap
    ∧ (bars.Nodup → some i ∈ bars → (animateSkillBars env bars false w).thrown = none →
        ((animateSkillBars env bars false w).world.bars i).fill
          = (w.bars i).fill.map
              (fun f => if f.width = "" then f.setWidthPercent (skillPercent (w.bars i)) else f))
    ∧ (∀ a : Bool, motionAllowed env = .ok a →
        (animateSkillBars env [some i] false w).thrown = none
        ∧ ((animateSkillBars env [some i] false w).world.bars i).label
          = (w.bars i).label.map
              (fun t => if jsTrim t = "0%" then percentText (skillPercent (w.bars i)) else t))
    ∧ (∀ (w2 : World) (pct : JSNumber),
        ((countUpOnComplete i pct w2).bars i).animated = some "true"
        ∧ ∃ cs,
          (animateSkillBars env bars false (countUpOnComplete i pct w2)).world.gsap
            = (countUpOnComplete i pct w2).gsap ++ cs
          ∧ ∀ c ∈ cs, c.addressesBar i = false) := by
  have key : ∀ (l : List (Option Nat)) (v : World), (v.bars i).animated = some "true" →
      ((animateSkillBars env l false v).world.bars i).animated = some "true"
      ∧ ∃ cs, (animateSkillBars env l false v).world.gsap = v.gsap ++ cs
          ∧ ∀ c ∈ cs, c.addressesBar i = false := by
    intro l v hv
    cases hm : motionAllowed env with
    | error e =>
      have : animateSkillBars env l false v = ⟨v, if l.isEmpty then none else some e⟩ := by
        unfold animateSkillBars
        cases l <;> simp [hm]
      rw [this]
      exact ⟨hv, [], by simp, by simp⟩
    | ok a =>
      rw [animateSkillBars_eq env a hm]
      exact forEach_animated_quiet a i l v hv
  have hdone : ∀ (w2 : World) (pct : JSNumber),
      ((countUpOnComplete i pct w2).bars i).animated = some "true" := by
    intro w2 pct
    simp [countUpOnComplete, World.setBar]
  refine ⟨(key bars w han).1, (key bars w han).2, ?_, ?_, ?_, ?_⟩
  · cases hm : motionAllowed env with
    | error e => simp [animateSkillBars, hm]
    | ok a =>
      rw [animateSkillBars_eq env a hm, forEachEntry_cons]
      obtain ⟨cs, h1, h2, _⟩ := animateSkillBar_gsap a false (some i) w
      have hk := animateBar_animated_keep a i (w.bars i) han
      have hstep : (animateSkillBar a false (some i) w).world.gsap = w.gsap := by
        rw [h1, h2 i rfl, hk.2.1]; simp
      split
      · simpa [forEachEntry] using hstep
      · exact hstep
  · intro hnd hmem hth
    have hne : bars ≠ [] := by intro h; rw [h] at hmem; cases hmem
    obtain ⟨a, ha⟩ := animateSkillBars_ok_of_thrown_none env bars false w hne hth
    rw [animateSkillBars_eq env a ha] at hth ⊢
    rw [forEach_bars_self a false i bars w hnd hmem hth]
    exact (animateBar_animated_keep a i (w.bars i) han).2.2.2.2
  · intro a ha
    rw [animateSkillBars_eq env a ha]
    have hk := animateBar_animated_keep a i (w.bars i) han
    have hth : (forEachEntry (animateSkillBar a false) [some i] w).thrown = none := by
      rw [forEachEntry_cons]
      have hstep : (animateSkillBar a false (some i) w).thrown = none := by
        rw [animateSkillBar_thrown]
        exact hk.2.2.1
      rw [if_pos hstep]
      rfl
    refine ⟨hth, ?_⟩
    rw [forEach_bars_self a false i [some i] w (by simp) (by simp) hth]
    exact hk.2.2.2.1
  · intro w2 pct
    exact ⟨hdone w2 pct, (key bars (countUpOnComplete i pct w2) (hdone w2 pct)).2⟩

/-- C8 (witness): a bar at rest at 80%, marked animated, keeps label, fill and
flag through a call without force, and the library log stays empty. -/
theorem C8_already_animated_amended_witness :
    ((examplePage settledBar).bars 0).animated = some "true"
    ∧ ((animateSkillBars motionEnv [some 0] false (examplePage settledBar)).world.bars 0).animated
        = some "true"
    ∧ (animateSkillBars motionEnv [some 0] false (examplePage settledBar)).world.gsap = []
    ∧ ((animateSkillBars motionEnv [some 0] false (examplePage settledBar)).world.bars 0).label
        = some "80%"
    ∧ ((animateSkillBars motionEnv [some 0] false (examplePage settledBar)).world.bars 0).fill
        = some { width := "80%" } :=
  have h := C8_already_animated_amended motionEnv [some 0] 0 (examplePage settledBar) rfl
  ⟨rfl, h.1, h.2.2.1, (h.2.2.2.2.1 true rfl).2, h.2.2.2.1 (by simp) (by simp) rfl⟩

theorem animateHero_motion (env : Env) (hm : motionAllowed env = .ok true) (w : World) :
    (animateHero env w).thrown = none
    ∧ (animateHero env w).world.bars = w.bars
    ∧ ∃ cs, (animateHero env w).world.gsap = w.gsap ++ cs := by
  obtain ⟨elems, bars, nameEl, taglineEl, heroTl, gsap⟩ := w
  cases nameEl with
  | none => exact ⟨rfl, rfl, [], by simp [animateHero]⟩
  | some n =>
    cases taglineEl with
    | none => exact ⟨rfl, rfl, [], by simp [animateHero]⟩
    | some g =>
      cases heroTl with
      | false =>
        simp only [animateHero, hm, World.call, Bool.false_eq_true, if_false]
        exact ⟨trivial, trivial, _, by rw [List.append_assoc]⟩
      | true =>
        simp only [animateHero, hm, World.call, if_true]
        exact ⟨trivial, trivial, _, by rw [List.append_assoc, List.append_assoc]⟩

theorem revealElementForce_motion (env : Env) (hm : motionAllowed env = .ok true) (t : Nat)
    (w : World) (hne : (w.elems t).skillBars ≠ []) :
    revealElementForce env (some t) w
      = (if ((animateSkillBars env ((w.elems t).skillBars.map some) true
              (w.call [.entranceForce t])).world.elems t).id = "home"
         then animateHero env (animateSkillBars env ((w.elems t).skillBars.map some) true
              (w.call [.entranceForce t])).world
         else animateSkillBars env ((w.elems t).skillBars.map some) true
              (w.call [.entranceForce t])) := by
  have hth : (animateSkillBars env ((w.elems t).skillBars.map some) true
      (w.call [.entranceForce t])).thrown = none := by
    rw [animateSkillBars_eq env true hm]
    exact forEach_thrown_motion true _ _
  have hemp : (w.elems t).skillBars.isEmpty = false := by
    cases h : (w.elems t).skillBars with
    | nil => exact absurd h hne
    | cons _ _ => rfl
  unfold revealElementForce
  simp only [hm, if_true]
  have he : ((w.call [.entranceForce t]).elems t).skillBars = (w.elems t).skillBars := rfl
  simp only [he, hemp, Bool.false_eq_true, if_false]
  rw [hth]

/-- C9: with motion allowed, for every target element and every skill bar
inside it that has a percent label, whether or not the bar is already marked
animated, revealElementForce returns without throwing; its result is that of
animateSkillBars called with force true on the skill bars of the target
(followed by animateHero when the target is the home section); the library
log gains, after the entrance tween of the target, the count-up request from
0 to the percentage of the bar; and running the completion callback of that
count-up leaves the label at pct% and the bar marked animated. -/
theorem C9_forced_replay (env : Env) (hm : motionAllowed env = .ok true) (t i : Nat)
    (w : World) (hmem : i ∈ (w.elems t).skillBars) (hl : (w.bars i).label.isSome = true) :
    (revealElementForce env (some t) w).thrown = none
    ∧ (revealElementForce env (some t) w
          = animateSkillBars env ((w.elems t).skillBars.map some) true
              (w.call [.entranceForce t])
        ∨ revealElementForce env (some t) w
          = animateHero env (animateSkillBars env ((w.elems t).skillBars.map some) true
              (w.call [.entranceForce t])).world)
    ∧ (∃ pre post, (revealElementForce env (some t) w).world.gsap
        = w.gsap ++ [.entranceForce t] ++ pre
          ++ [.killTweensOfFill i, .fillTo i (percentText (skillPercent (w.bars i))),
              .countUp i (skillPercent (w.bars i))]
          ++ post)
    ∧ ∀ w2 : World, (w2.bars i).label.isSome = true →
        (((GsapCall.countUp i (skillPercent (w.bars i))).onComplete w2).bars i).label
          = some (percentText (skillPercent (w.bars i)))
        ∧ (((GsapCall.countUp i (skillPercent (w.bars i))).onComplete w2).bars i).animated
          = some "true" := by
  have hne : (w.elems t).skillBars ≠ [] := by
    intro h; rw [h] at hmem; cases hmem
  have hmem2 : some i ∈ (w.elems t).skillBars.map some := List.mem_map.mpr ⟨i, hmem, rfl⟩
  have hth : (animateSkillBars env ((w.elems t).skillBars.map some) true
      (w.call [.entranceForce t])).thrown = none := by
    rw [animateSkillBars_eq env true hm]
    exact forEach_thrown_motion true _ _
  have hlog : ∃ pre post, (animateSkillBars env ((w.elems t).skillBars.map some) true
      (w.call [.entranceForce t])).world.gsap
        = w.gsap ++ [.entranceForce t] ++ pre
          ++ [.killTweensOfFill i, .fillTo i (percentText (skillPercent (w.bars i))),
              .countUp i (skillPercent (w.bars i))]
          ++ post := by
    rw [animateSkillBars_eq env true hm] at hth ⊢
    obtain ⟨pre, post, h⟩ := forEach_gsap_calls true true i _ (w.call [.entranceForce t])
      hmem2 hth
    refine ⟨pre, post, ?_⟩
    rw [h]
    have hb : (w.call [.entranceForce t]).bars i = w.bars i := rfl
    rw [hb, animateBar_tween true i (w.bars i) (Or.inl rfl) hl]
    rfl
  rw [revealElementForce_motion env hm t w hne]
  refine ⟨?_, ?_, ?_, ?_⟩
  · split
    · exact (animateHero_motion env hm _).1
    · exact hth
  · split
    · exact Or.inr rfl
    · exact Or.inl rfl
  · split
    · obtain ⟨pre, post, h⟩ := hlog
      obtain ⟨cs, hcs⟩ := (animateHero_motion env hm
        (animateSkillBars env ((w.elems t).skillBars.map some) true
          (w.call [.entranceForce t])).world).2.2
      exact ⟨pre, post ++ cs, by rw [hcs, h]; simp [List.append_assoc]⟩
    · exact hlog
  · intro w2 hl2
    exact countUpOnComplete_bar i _ w2 hl2

/-- C9 (witness): the skills section whose bar already rests at 80%, marked
animated; the forced reveal requests the count-up to 80 again. -/
theorem C9_forced_replay_witness :
    ((examplePage settledBar).bars 0).animated = some "true"
    ∧ (revealElementForce motionEnv (some 0) (examplePage settledBar)).thrown = none
    ∧ (revealElementForce motionEnv (some 0) (examplePage settledBar)).world.gsap
        = [.entranceForce 0, .killTweensOfFill 0, .fillTo 0 "80%", .countUp 0 (.int 80)]
    ∧ (((GsapCall.countUp 0 (.int 80)).onComplete
          (revealElementForce motionEnv (some 0) (examplePage settledBar)).world).bars 0).label
        = some "80%" :=
  have h := C9_forced_replay motionEnv rfl 0 0 (examplePage settledBar) (by simp [examplePage])
    rfl
  ⟨rfl, h.1, rfl,
   (h.2.2.2 (revealElementForce motionEnv (some 0) (examplePage settledBar)).world rfl).1⟩

/-- C10 (the code at the failing input): a labelled bar with data-percent 73,
not marked animated, and two calls of animateSkillBars without force with no
completion callback in between (the call at DOM ready for a skills section in
view, then the call made by the reveal observer). The first call requests the
fill tween and the count-up and leaves the bar unmarked, because the flag is
only set by the completion callback; the second call therefore requests both
tweens again. -/
theorem C10_second_call_animates_again :
    motionAllowed motionEnv = .ok true
    ∧ (animateSkillBars motionEnv [some 0] false
          (examplePage (exampleBar (some "73") true))).world.gsap
        = [.killTweensOfFill 0, .fillTo 0 "73%", .countUp 0 (.int 73)]
    ∧ ((animateSkillBars motionEnv [some 0] false
          (examplePage (exampleBar (some "73") true))).world.bars 0).animated = none
    ∧ (animateSkillBars motionEnv [some 0] false
          (animateSkillBars motionEnv [some 0] false
            (examplePage (exampleBar (some "73") true))).world).world.gsap
        = [.killTweensOfFill 0, .fillTo 0 "73%", .countUp 0 (.int 73),
           .killTweensOfFill 0, .fillTo 0 "73%", .countUp 0 (.int 73)] := by
  refine ⟨rfl, rfl, rfl, rfl⟩

/-! ## Theorems: missing elements, the fallback, hover handlers -/

/-- C13 (the code at the failing inputs): with motion disallowed, a skill bar
without a nested .fill element makes animateSkillBars throw on line 339 and
applySkillFallback throw on line 379, and a document without a .nav container
makes initNavUnderline throw on line 203. The branch of animateSkillBars for
an already animated bar guards the fill and returns, and so do both functions
on a section without skill bars. -/
theorem C13_missing_target_throws :
    (animateSkillBars reducedEnv [some 0] false (examplePage fillLessBar)).thrown
      = some .typeError
    ∧ (applySkillFallback 0 (examplePage fillLessBar)).thrown = some .typeError
    ∧ initNavUnderline noNavDom = .error .typeError
    ∧ (animateSkillBars reducedEnv [some 0] false
        (examplePage { fillLessBar with animated := some "true" })).thrown = none
    ∧ (applySkillFallback 0 emptySectionPage).thrown = none
    ∧ (animateSkillBars reducedEnv [] false emptySectionPage).thrown = none := by
  refine ⟨rfl, rfl, rfl, rfl, rfl, rfl⟩

/-- C14 (the code at the failing input): the OS signal is true, so
motionAllowed returns false; the page has a #name element, on which
animateNameColorCycle registers its listeners without consulting the gate;
a mouseleave event on #name then requests the color tween of line 654,
although the mouseenter listener of the same element returns without a
request. -/
theorem C14_mouseleave_requests_tween :
    motionAllowed reducedEnv = .ok false
    ∧ animateNameColorCycle namePage [] = [{ colorTween := false }]
    ∧ (nameMouseLeaveEvent (animateNameColorCycle namePage []) namePage).1.gsap
        = [.colorReset]
    ∧ GsapCall.isTween .colorReset = true
    ∧ (nameMouseEnter reducedEnv { colorTween := false } namePage).1.world.gsap = [] := by
  refine ⟨rfl, rfl, rfl, rfl, rfl⟩

/-- C15 (the code at the failing inputs): for data-percent 150
applySkillFallback writes fill width 150%, label 150% and aria-valuenow 150,
where animateSkillBars under disallowed motion writes 100%, 100% and 100; for
data-percent -5 it writes label -5% and aria-valuenow -5, where
animateSkillBars writes 0% and 0. The fallback parses without clamping. -/
theorem C15_fallback_does_not_clamp :
    ((applySkillFallback 0 (examplePage (exampleBar (some "150") true))).world.bars 0).fill
      = some { width := "150%" }
    ∧ ((applySkillFallback 0 (examplePage (exampleBar (some "150") true))).world.bars 0).label
      = some "150%"
    ∧ ((applySkillFallback 0
          (examplePage (exampleBar (some "150") true))).world.bars 0).ariaValueNow
      = some "150"
    ∧ ((animateSkillBars reducedEnv [some 0] false
          (examplePage (exampleBar (some "150") true))).world.bars 0).fill
      = some { width := "100%" }
    ∧ ((animateSkillBars reducedEnv [some 0] false
          (examplePage (exampleBar (some "150") true))).world.bars 0).label
      = some "100%"
    ∧ ((animateSkillBars reducedEnv [some 0] false
          (examplePage (exampleBar (some "150") true))).world.bars 0).ariaValueNow
      = some "100"
    ∧ ((applySkillFallback 0 (examplePage (exampleBar (some "-5") true))).world.bars 0).label
      = some "-5%"
    ∧ ((applySkillFallback 0
          (examplePage (exampleBar (some "-5") true))).world.bars 0).ariaValueNow
      = some "-5"
    ∧ ((animateSkillBars reducedEnv [some 0] false
          (examplePage (exampleBar (some "-5") true))).world.bars 0).label
      = some "0%"
    ∧ ((animateSkillBars reducedEnv [some 0] false
          (examplePage (exampleBar (some "-5") true))).world.bars 0).ariaValueNow
      = some "0" := by
  refine ⟨rfl, rfl, rfl, rfl, rfl, rfl, rfl, rfl, rfl, rfl⟩

/-! ## Theorems: throttle -/

theorem lastTime_cons {α : Type} (ref : Int) (c : Int × α) (cs : List (Int × α)) :
    lastTime ref (c :: cs) = lastTime c.1 cs := by
  cases cs with
  | nil => rfl
  | cons d ds =>
    have h : (d :: ds).getLast? ≠ none := by simp
    simp only [lastTime, List.getLast?_cons_cons]
    cases hl : (d :: ds).getLast? with
    | none => exact absurd hl h
    | some x => rfl

theorem throttleCalls_eq {α σ : Type} (fn : α → σ → σ) (wait : Int) (cs : List (Int × α)) :
    ∀ (t : Throttled) (s : σ),
      throttleCalls fn wait cs (t, s)
        = ({ last := lastTime t.last (invokedCalls wait t.last cs) },
           (invokedCalls wait t.last cs).foldl (fun st c => fn c.2 st) s) := by
  induction cs with
  | nil => intro t s; rfl
  | cons c cs ih =>
    intro t s
    by_cases h : c.1 - t.last ≥ wait
    · simp only [throttleCalls, throttle, invokedCalls, h, if_true, ih, lastTime_cons,
        List.foldl_cons]
    · simp only [throttleCalls, throttle, invokedCalls, h, if_false, ih]

theorem invokedCalls_sublist {α : Type} (wait : Int) (cs : List (Int × α)) :
    ∀ ref : Int, (invokedCalls wait ref cs).Sublist cs := by
  induction cs with
  | nil => intro ref; exact List.Sublist.slnil
  | cons c cs ih =>
    intro ref
    by_cases h : c.1 - ref ≥ wait
    · simp only [invokedCalls, h, if_true]
      exact (ih c.1).cons₂ c
    · simp only [invokedCalls, h, if_false]
      exact (ih ref).cons c

theorem invokedCalls_chain {α : Type} (wait : Int) (cs : List (Int × α)) :
    ∀ ref : Int, List.Chain (fun a b => b - a ≥ wait) ref
      ((invokedCalls wait ref cs).map Prod.fst) := by
  induction cs with
  | nil => intro ref; exact List.Chain.nil
  | cons c cs ih =>
    intro ref
    by_cases h : c.1 - ref ≥ wait
    · simp only [invokedCalls, h, if_true, List.map_cons]
      exact List.Chain.cons h (ih c.1)
    · simp only [invokedCalls, h, if_false]
      exact ih ref

/-- C16: for every fn, every wait and every sequence of calls of the wrapper
returned by throttle(fn, wait), started with last = 0: the run applies fn to
the arguments of exactly the invoked calls of the specification, in order;
these form a subsequence of the calls; each invoked call lies at least wait
after the one before it (the first at least wait after 0); and a call made
after the calls pre invokes fn, with its own arguments, exactly when its clock
reading is at least wait later than the last invoked call of pre (0 when there
is none), and otherwise changes nothing. -/
theorem C16_throttle_invokes {α σ : Type} (fn : α → σ → σ) (wait : Int)
    (calls pre : List (Int × α)) (c : Int × α) (s : σ) :
    throttleCalls fn wait calls (Throttled.fresh, s)
      = ({ last := lastTime 0 (invokedCalls wait 0 calls) },
         (invokedCalls wait 0 calls).foldl (fun st d => fn d.2 st) s)
    ∧ (invokedCalls wait 0 calls).Sublist calls
    ∧ List.Chain (fun a b => b - a ≥ wait) 0 ((invokedCalls wait 0 calls).map Prod.fst)
    ∧ throttle fn wait (throttleCalls fn wait pre (Throttled.fresh, s)).1 c.1 c.2
          (throttleCalls fn wait pre (Throttled.fresh, s)).2
        = (if c.1 - lastTime 0 (invokedCalls wait 0 pre) ≥ wait
           then ({ last := c.1 }, fn c.2 (throttleCalls fn wait pre (Throttled.fresh, s)).2)
           else throttleCalls fn wait pre (Throttled.fresh, s)) := by
  refine ⟨throttleCalls_eq fn wait calls Throttled.fresh s, invokedCalls_sublist wait calls 0,
    invokedCalls_chain wait calls 0, ?_⟩
  rw [throttleCalls_eq fn wait pre Throttled.fresh s]
  simp only [throttle, Throttled.fresh]

/-! ## Theorems: the fallback under disallowed motion -/

theorem StillStep.refl (w : World) : StillStep w w :=
  ⟨rfl, fun _ => ⟨rfl, id⟩, fun _ => ⟨rfl, rfl, id⟩⟩

theorem StillStep.trans {w w1 w2 : World} (h1 : StillStep w w1) (h2 : StillStep w1 w2) :
    StillStep w w2 := by
  obtain ⟨g1, e1, b1⟩ := h1
  obtain ⟨g2, e2, b2⟩ := h2
  refine ⟨g2.trans g1, fun x => ⟨(e2 x).1.trans (e1 x).1, fun h => (e2 x).2 ((e1 x).2 h)⟩,
    fun i => ⟨(b2 i).1.trans (b1 i).1, (b2 i).2.1.trans (b1 i).2.1,
      fun h => (b2 i).2.2 ((b1 i).2.2 h)⟩⟩

theorem setWidthPercent_idem (f : Fill) (pct : JSNumber) :
    (f.setWidthPercent pct).setWidthPercent pct = f.setWidthPercent pct := by
  cases pct with
  | nan => rfl
  | int i =>
    by_cases h : 0 ≤ i
    · simp [Fill.setWidthPercent, h]
    · simp [Fill.setWidthPercent, h]

theorem fallbackBar_of_fill (b : SkillBar) (f : Fill) (hf : b.fill = some f) :
    (fallbackBar b).thrown = none
    ∧ (fallbackBar b).bar.animated = some "true"
    ∧ (fallbackBar b).bar.ariaValueNow = some (fallbackPercent b).toJSString
    ∧ (fallbackBar b).bar.dataPercent = b.dataPercent
    ∧ (fallbackBar b).bar.fill = some (f.setWidthPercent (fallbackPercent b))
    ∧ (fallbackBar b).bar.closestSkill = b.closestSkill
    ∧ (b.closestSkill = true →
        (fallbackBar b).bar.label = b.label.map (fun _ => percentText (fallbackPercent b))) := by
  unfold fallbackBar
  simp only [hf]
  split <;> simp_all [SkillBar.setLabel]

theorem fallbackBar_of_no_fill (b : SkillBar) (hf : b.fill = none) :
    fallbackBar b = ⟨b, [], some .typeError⟩ := by
  unfold fallbackBar
  simp only [hf]

theorem fallbackBar_snapped (b : SkillBar) (f : Fill) (hf : b.fill = some f) :
    (fallbackBar b).bar.snapped := by
  obtain ⟨_, h2, h3, h4, h5, _, _⟩ := fallbackBar_of_fill b f hf
  have hp : fallbackPercent (fallbackBar b).bar = fallbackPercent b := by
    simp only [fallbackPercent, h4]
  refine ⟨h2, ?_⟩
  intro q hq h0 _
  rw [hp] at hq
  rw [h3, h5, hq]
  exact ⟨rfl, by rw [setWidthPercent_int f q h0]⟩

theorem fallbackBar_keeps (b : SkillBar) :
    (fallbackBar b).bar.dataPercent = b.dataPercent
    ∧ (fallbackBar b).bar.fill.isSome = b.fill.isSome
    ∧ (b.snapped → (fallbackBar b).bar.snapped) := by
  cases hf : b.fill with
  | none =>
    rw [fallbackBar_of_no_fill b hf]
    exact ⟨rfl, by rw [hf], id⟩
  | some f =>
    obtain ⟨_, _, _, h4, h5, _, _⟩ := fallbackBar_of_fill b f hf
    exact ⟨h4, by rw [h5]; rfl, fun _ => fallbackBar_snapped b f hf⟩

theorem applySkillFallbackBar_still (e : Option Nat) (w : World) :
    StillStep w (applySkillFallbackBar e w).world := by
  cases e with
  | none => exact StillStep.refl w
  | some i =>
    refine ⟨rfl, fun x => ⟨rfl, id⟩, fun j => ?_⟩
    by_cases hj : j = i
    · subst hj
      simpa [applySkillFallbackBar, World.setBar] using fallbackBar_keeps (w.bars j)
    · simp [applySkillFallbackBar, World.setBar, hj]

theorem forEachEntry_still (f : Option Nat → World → Outcome)
    (hf : ∀ e w, StillStep w (f e w).world) (l : List (Option Nat)) :
    ∀ w : World, StillStep w (forEachEntry f l w).world := by
  induction l with
  | nil => intro w; exact StillStep.refl w
  | cons e l ih =>
    intro w
    rw [forEachEntry_cons]
    split
    · exact (hf e w).trans (ih _)
    · exact hf e w

theorem forEachFallback_thrown (l : List (Option Nat)) :
    ∀ w : World, (∀ i, some i ∈ l → (w.bars i).fill.isSome = true) →
      (forEachEntry applySkillFallbackBar l w).thrown = none := by
  induction l with
  | nil => intro w _; rfl
  | cons e l ih =>
    intro w h
    have hstep : (applySkillFallbackBar e w).thrown = none := by
      cases e with
      | none => rfl
      | some j =>
        obtain ⟨f, hf⟩ := Option.isSome_iff_exists.mp (h j (by simp))
        exact (fallbackBar_of_fill (w.bars j) f hf).1
    rw [forEachEntry_cons, if_pos hstep]
    apply ih
    intro j hj
    rw [((applySkillFallbackBar_still e w).2.2 j).2.1]
    exact h j (by simp [hj])

theorem forEachFallback_snapped (l : List (Option Nat)) :
    ∀ w : World, (forEachEntry applySkillFallbackBar l w).thrown = none →
      ∀ i, some i ∈ l → ((forEachEntry applySkillFallbackBar l w).world.bars i).snapped := by
  induction l with
  | nil => intro w _ i hi; cases hi
  | cons e l ih =>
    intro w
    rw [forEachEntry_cons]
    split
    · rename_i hstep
      intro hth i hi
      rcases List.mem_cons.mp hi with h | h
      · subst h
        have hs : ((applySkillFallbackBar (some i) w).world.bars i).snapped := by
          cases hf : (w.bars i).fill with
          | none =>
            have : (applySkillFallbackBar (some i) w).thrown = some .typeError := by
              simp [applySkillFallbackBar, fallbackBar_of_no_fill _ hf]
            rw [this] at hstep
            cases hstep
          | some f =>
            have hb : (applySkillFallbackBar (some i) w).world.bars i
                = (fallbackBar (w.bars i)).bar := by
              simp [applySkillFallbackBar, World.setBar]
            rw [hb]
            exact fallbackBar_snapped (w.bars i) f hf
        exact ((forEachEntry_still _ applySkillFallbackBar_still l _).2.2 i).2.2 hs
      · exact ih _ hth i h
    · rename_i hstep
      intro hth
      exact absurd hth hstep

theorem setOpacity_still_one (w : World) (el : Nat) : StillStep w (w.setOpacity el "1") := by
  refine ⟨rfl, fun x => ?_, fun i => ⟨rfl, rfl, id⟩⟩
  by_cases hx : x = el
  · subst hx
    simp [World.setOpacity, World.setElem]
  · simp [World.setOpacity, World.setElem, hx]

theorem applySkillFallback_still (el : Nat) (w : World) :
    StillStep w (applySkillFallback el w).world := by
  unfold applySkillFallback
  simp only
  split
  · exact StillStep.refl w
  · exact forEachEntry_still _ applySkillFallbackBar_still _ w

theorem applySkillFallback_thrown (el : Nat) (w : World)
    (h : ∀ i ∈ (w.elems el).skillBars, (w.bars i).fill.isSome = true) :
    (applySkillFallback el w).thrown = none := by
  unfold applySkillFallback
  simp only
  split
  · rfl
  · apply forEachFallback_thrown
    intro i hi
    obtain ⟨j, hj, hji⟩ := List.mem_map.mp hi
    cases hji
    exact h i hj

theorem applySkillFallback_snapped (el : Nat) (w : World)
    (hth : (applySkillFallback el w).thrown = none) :
    ∀ i ∈ (w.elems el).skillBars, ((applySkillFallback el w).world.bars i).snapped := by
  unfold applySkillFallback at hth ⊢
  simp only at hth ⊢
  intro i hi
  split at hth
  · rename_i hemp
    rw [List.isEmpty_iff] at hemp
    rw [hemp] at hi
    cases hi
  · rename_i hemp
    simp only [hemp]
    exact forEachFallback_snapped _ w hth i (List.mem_map.mpr ⟨i, hi, rfl⟩)

/-! ## Theorems: the reveal observers -/

theorem mem_unobserveTarget (ts : List Nat) (el x : Nat) :
    x ∈ unobserveTarget ts el ↔ x ∈ ts ∧ x ≠ el := by
  simp [unobserveTarget]

theorem mem_observeTarget (ts : List Nat) (el x : Nat) :
    x ∈ observeTarget ts el ↔ x ∈ ts ∨ x = el := by
  unfold observeTarget
  split
  · rename_i h
    constructor
    · intro hx; exact Or.inl hx
    · intro hx
      rcases hx with hx | hx
      · exact hx
      · rw [hx]; exact h
  · simp

theorem targets_unobserve (p : Page) (ob : Observer) (el : Nat) :
    (p.unobserve ob el).targets ob = unobserveTarget (p.targets ob) el := by
  cases ob with
  | revealObserver => rfl
  | windowRevealObserver =>
    cases h : p.windowObserved with
    | none => simp [Page.unobserve, Page.targets, h, unobserveTarget]
    | some ts => simp [Page.unobserve, Page.targets, h]

theorem forEachThrow_cons {α : Type} (f : α → Page → PageOutcome) (x : α) (l : List α)
    (p : Page) :
    forEachThrow f (x :: l) p
      = (if (f x p).thrown = none then forEachThrow f l (f x p).page else f x p) := by
  simp only [forEachThrow]
  rcases hfe : f x p with ⟨p1, t⟩
  cases t <;> simp

theorem revealOnIntersect_eq : revealOnIntersect = revealDispatch := rfl

theorem revealEntry_not_intersecting (env : Env) (ob : Observer) (e : Entry) (p : Page)
    (h : e.isIntersecting = false) : revealEntry env ob e p = ⟨p, none⟩ := by
  simp [revealEntry, h]

theorem revealEntry_intersecting (env : Env) (ob : Observer) (e : Entry) (p : Page)
    (h : e.isIntersecting = true) :
    revealEntry env ob e p
      = (if (revealDispatch env (p.innerCards e.target) e.target p.world).thrown = none
         then ⟨({ p with world :=
                  (revealDispatch env (p.innerCards e.target) e.target p.world).world }
                : Page).unobserve ob e.target, none⟩
         else ⟨{ p with world :=
                  (revealDispatch env (p.innerCards e.target) e.target p.world).world },
               (revealDispatch env (p.innerCards e.target) e.target p.world).thrown⟩) := by
  unfold revealEntry
  simp only [h, if_true]
  cases ob <;> simp only [revealOnIntersect_eq] <;>
    cases (revealDispatch env (p.innerCards e.target) e.target p.world).thrown <;> simp

theorem revealEntry_static (env : Env) (ob : Observer) (e : Entry) (p : Page) :
    (revealEntry env ob e p).page.sections = p.sections
    ∧ (revealEntry env ob e p).page.innerCards = p.innerCards := by
  cases h : e.isIntersecting with
  | false => rw [revealEntry_not_intersecting env ob e p h]; exact ⟨rfl, rfl⟩
  | true =>
    rw [revealEntry_intersecting env ob e p h]
    split
    · cases ob <;> exact ⟨rfl, rfl⟩
    · exact ⟨rfl, rfl⟩

theorem revealEntry_world (env : Env) (ob : Observer) (e : Entry) (p : Page) :
    (revealEntry env ob e p).page.world
      = (if e.isIntersecting = true
         then (revealDispatch env (p.innerCards e.target) e.target p.world).world
         else p.world) := by
  cases h : e.isIntersecting with
  | false => rw [revealEntry_not_intersecting env ob e p h]; simp
  | true =>
    rw [revealEntry_intersecting env ob e p h]
    split
    · cases ob <;> simp [Page.unobserve]
    · simp

theorem revealEntry_thrown (env : Env) (ob : Observer) (e : Entry) (p : Page) :
    (revealEntry env ob e p).thrown
      = (if e.isIntersecting = true
         then (revealDispatch env (p.innerCards e.target) e.target p.world).thrown
         else none) := by
  cases h : e.isIntersecting with
  | false => rw [revealEntry_not_intersecting env ob e p h]; simp
  | true =>
    rw [revealEntry_intersecting env ob e p h]
    split
    · rename_i hn; simp [hn]
    · simp

theorem revealEntry_targets (env : Env) (ob : Observer) (e : Entry) (p : Page)
    (hth : (revealEntry env ob e p).thrown = none) (x : Nat) :
    x ∈ (revealEntry env ob e p).page.targets ob
      ↔ x ∈ p.targets ob ∧ (e.isIntersecting = true → e.target ≠ x) := by
  cases h : e.isIntersecting with
  | false => rw [revealEntry_not_intersecting env ob e p h]; simp
  | true =>
    have hd : (revealDispatch env (p.innerCards e.target) e.target p.world).thrown = none := by
      rw [revealEntry_thrown, h] at hth
      simpa using hth
    rw [revealEntry_intersecting env ob e p h, if_pos hd]
    simp only [targets_unobserve, mem_unobserveTarget]
    have ht : ({ p with world :=
        (revealDispatch env (p.innerCards e.target) e.target p.world).world } : Page).targets ob
          = p.targets ob := by cases ob <;> rfl
    rw [ht]
    constructor
    · intro hx; exact ⟨hx.1, fun _ hh => hx.2 hh.symm⟩
    · intro hx; exact ⟨hx.1, fun hh => hx.2 trivial hh.symm⟩

theorem observerCallback_static (env : Env) (ob : Observer) (entries : List Entry) :
    ∀ p : Page, (observerCallback env ob entries p).page.sections = p.sections
      ∧ (observerCallback env ob entries p).page.innerCards = p.innerCards := by
  unfold observerCallback
  induction entries with
  | nil => intro p; exact ⟨rfl, rfl⟩
  | cons e l ih =>
    intro p
    rw [forEachThrow_cons]
    have hs := revealEntry_static env ob e p
    split
    · exact ⟨(ih _).1.trans hs.1, (ih _).2.trans hs.2⟩
    · exact hs

theorem observerCallback_targets (env : Env) (ob : Observer) (entries : List Entry) :
    ∀ p : Page, (observerCallback env ob entries p).thrown = none → ∀ x : Nat,
      (x ∈ (observerCallback env ob entries p).page.targets ob
        ↔ x ∈ p.targets ob ∧ ∀ e ∈ entries, e.isIntersecting = true → e.target ≠ x) := by
  unfold observerCallback
  induction entries with
  | nil => intro p _ x; simp [forEachThrow]
  | cons e l ih =>
    intro p
    rw [forEachThrow_cons]
    split
    · rename_i hstep
      intro hth x
      rw [ih _ hth x, revealEntry_targets env ob e p hstep x]
      constructor
      · rintro ⟨⟨h1, h2⟩, h3⟩
        refine ⟨h1, ?_⟩
        intro d hd
        rcases List.mem_cons.mp hd with hd | hd
        · rw [hd]; exact h2
        · exact h3 d hd
      · rintro ⟨h1, h2⟩
        exact ⟨⟨h1, h2 e (by simp)⟩, fun d hd => h2 d (by simp [hd])⟩
    · rename_i hstep
      intro hth
      exact absurd hth hstep

theorem revealDispatch_still (env : Env) (hm : motionAllowed env = .ok false)
    (inner : List Nat) (el : Nat) (w : World) :
    revealDispatch env inner el w = applySkillFallback el (w.setOpacity el "1") := by
  simp [revealDispatch, hm]

theorem revealDispatch_still_step (env : Env) (hm : motionAllowed env = .ok false)
    (inner : List Nat) (el : Nat) (w : World) :
    StillStep w (revealDispatch env inner el w).world
    ∧ ((revealDispatch env inner el w).world.elems el).opacity = "1"
    ∧ ((∀ i ∈ (w.elems el).skillBars, (w.bars i).fill.isSome = true) →
        (revealDispatch env inner el w).thrown = none)
    ∧ ((revealDispatch env inner el w).thrown = none →
        ∀ i ∈ (w.elems el).skillBars, ((revealDispatch env inner el w).world.bars i).snapped) := by
  rw [revealDispatch_still env hm]
  have h1 := setOpacity_still_one w el
  have h2 := applySkillFallback_still el (w.setOpacity el "1")
  have hbars : ((w.setOpacity el "1").elems el).skillBars = (w.elems el).skillBars :=
    (h1.2.1 el).1
  refine ⟨h1.trans h2, ?_, ?_, ?_⟩
  · apply (h2.2.1 el).2
    simp [World.setOpacity, World.setElem]
  · intro hf
    apply applySkillFallback_thrown
    rw [hbars]
    exact hf
  · intro hth i hi
    apply applySkillFallback_snapped el _ hth
    rw [hbars]
    exact hi

theorem animateIfAny_motion (env : Env) (hm : motionAllowed env = .ok true) (el : Nat)
    (w : World) :
    (if (w.elems el).skillBars.isEmpty then (⟨w, none⟩ : Outcome)
      else animateSkillBars env ((w.elems el).skillBars.map some) false w).thrown = none
    ∧ ∃ cs, (if (w.elems el).skillBars.isEmpty then (⟨w, none⟩ : Outcome)
      else animateSkillBars env ((w.elems el).skillBars.map some) false w).world.gsap
        = w.gsap ++ cs := by
  split
  · exact ⟨rfl, [], by simp⟩
  · rw [animateSkillBars_eq env true hm]
    exact ⟨forEach_thrown_motion false _ _, forEach_gsap_extends true false _ w⟩

theorem revealDispatch_motion (env : Env) (hm : motionAllowed env = .ok true)
    (inner : List Nat) (el : Nat) (w : World) :
    (revealDispatch env inner el w).thrown = none
    ∧ ∃ cs, (revealDispatch env inner el w).world.gsap = w.gsap ++ [.entrance el] ++ cs := by
  have hre : ∃ cs0, (requestEntrance inner el w).gsap = w.gsap ++ [.entrance el] ++ cs0 := by
    unfold requestEntrance
    by_cases hin : inner.isEmpty = true
    · exact ⟨[], by simp [hin, World.call]⟩
    · exact ⟨[.innerEntrance inner], by simp [hin, World.call]⟩
  obtain ⟨cs0, hcs0⟩ := hre
  unfold revealDispatch
  simp only [hm]
  obtain ⟨h1, cs, hcs⟩ := animateIfAny_motion env hm el (requestEntrance inner el w)
  refine ⟨h1, cs0 ++ cs, ?_⟩
  rw [hcs, hcs0]
  simp [List.append_assoc]

theorem revealEntry_still (env : Env) (hm : motionAllowed env = .ok false) (ob : Observer)
    (e : Entry) (p : Page) : StillStep p.world (revealEntry env ob e p).page.world := by
  rw [revealEntry_world]
  split
  · exact (revealDispatch_still_step env hm _ _ _).1
  · exact StillStep.refl _

theorem observerCallback_still (env : Env) (hm : motionAllowed env = .ok false)
    (ob : Observer) (entries : List Entry) :
    ∀ p : Page, StillStep p.world (observerCallback env ob entries p).page.world := by
  unfold observerCallback
  induction entries with
  | nil => intro p; exact StillStep.refl _
  | cons e l ih =>
    intro p
    rw [forEachThrow_cons]
    split
    · exact (revealEntry_still env hm ob e p).trans (ih _)
    · exact revealEntry_still env hm ob e p

theorem observerCallback_still_thrown (env : Env) (hm : motionAllowed env = .ok false)
    (ob : Observer) (entries : List Entry) :
    ∀ p : Page,
      (∀ e ∈ entries, e.isIntersecting = true →
        ∀ i ∈ (p.world.elems e.target).skillBars, (p.world.bars i).fill.isSome = true) →
      (observerCallback env ob entries p).thrown = none := by
  unfold observerCallback
  induction entries with
  | nil => intro p _; rfl
  | cons e l ih =>
    intro p hf
    have hstep : (revealEntry env ob e p).thrown = none := by
      rw [revealEntry_thrown]
      split
      · rename_i hi
        exact (revealDispatch_still_step env hm _ _ _).2.2.1 (hf e (by simp) hi)
      · rfl
    rw [forEachThrow_cons, if_pos hstep]
    apply ih
    intro d hd hi i hmem
    have hst := revealEntry_still env hm ob e p
    rw [(hst.2.1 d.target).1] at hmem
    rw [(hst.2.2 i).2.1]
    exact hf d (by simp [hd]) hi i hmem

theorem observerCallback_still_snapped (env : Env) (hm : motionAllowed env = .ok false)
    (ob : Observer) (entries : List Entry) :
    ∀ p : Page, (observerCallback env ob entries p).thrown = none →
      ∀ e ∈ entries, e.isIntersecting = true →
        ((observerCallback env ob entries p).page.world.elems e.target).opacity = "1"
        ∧ ∀ i ∈ (p.world.elems e.target).skillBars,
            ((observerCallback env ob entries p).page.world.bars i).snapped := by
  induction entries with
  | nil => intro p _ e he; cases he
  | cons d l ih =>
    intro p
    have hrest := observerCallback_still env hm ob l (revealEntry env ob d p).page
    have hst := revealEntry_still env hm ob d p
    unfold observerCallback at ih hrest ⊢
    rw [forEachThrow_cons]
    split
    · rename_i hstep
      intro hth e he hi
      rcases List.mem_cons.mp he with h | h
      · subst h
        have hw := revealEntry_world env ob e p
        rw [if_pos hi] at hw
        have hd := revealDispatch_still_step env hm (p.innerCards e.target) e.target p.world
        have hdth : (revealDispatch env (p.innerCards e.target) e.target p.world).thrown
            = none := by
          rw [revealEntry_thrown, if_pos hi] at hstep
          exact hstep
        constructor
        · apply (hrest.2.1 e.target).2
          rw [hw]
          exact hd.2.1
        · intro i hmem
          apply (hrest.2.2 i).2.2
          rw [hw]
          exact hd.2.2.2 hdth i hmem
      · obtain ⟨h1, h2⟩ := ih _ hth e h hi
        refine ⟨h1, ?_⟩
        intro i hmem
        apply h2
        rw [(hst.2.1 e.target).1]
        exact hmem
    · rename_i hstep
      intro hth
      exact absurd hth hstep

theorem revealEntry_motion (env : Env) (hm : motionAllowed env = .ok true) (ob : Observer)
    (e : Entry) (p : Page) :
    (revealEntry env ob e p).thrown = none
    ∧ ∃ cs, (revealEntry env ob e p).page.world.gsap = p.world.gsap ++ cs
        ∧ (e.isIntersecting = true → ∃ cs2, cs = [.entrance e.target] ++ cs2) := by
  rw [revealEntry_thrown, revealEntry_world]
  have hd := revealDispatch_motion env hm (p.innerCards e.target) e.target p.world
  cases hi : e.isIntersecting with
  | false => exact ⟨by simp, [], by simp, by simp⟩
  | true =>
    obtain ⟨cs, hcs⟩ := hd.2
    refine ⟨by simpa using hd.1, [.entrance e.target] ++ cs, ?_, fun _ => ⟨cs, rfl⟩⟩
    simp only [if_true]
    rw [hcs, List.append_assoc]

theorem observerCallback_motion (env : Env) (hm : motionAllowed env = .ok true)
    (ob : Observer) (entries : List Entry) :
    ∀ p : Page, (observerCallback env ob entries p).thrown = none
      ∧ (∃ cs, (observerCallback env ob entries p).page.world.gsap = p.world.gsap ++ cs)
      ∧ ∀ e ∈ entries, e.isIntersecting = true →
          ∃ pre post, (observerCallback env ob entries p).page.world.gsap
            = p.world.gsap ++ pre ++ [.entrance e.target] ++ post := by
  unfold observerCallback
  induction entries with
  | nil => intro p; exact ⟨rfl, ⟨[], by simp [forEachThrow]⟩, fun e he => by cases he⟩
  | cons d l ih =>
    intro p
    obtain ⟨hth, cs, hcs, hent⟩ := revealEntry_motion env hm ob d p
    rw [forEachThrow_cons, if_pos hth]
    obtain ⟨h1, ⟨cs2, hcs2⟩, h3⟩ := ih (revealEntry env ob d p).page
    refine ⟨h1, ⟨cs ++ cs2, by rw [hcs2, hcs, List.append_assoc]⟩, ?_⟩
    intro e he hi
    rcases List.mem_cons.mp he with h | h
    · subst h
      obtain ⟨cs3, hcs3⟩ := hent hi
      refine ⟨[], cs3 ++ cs2, ?_⟩
      rw [hcs2, hcs, hcs3]
      simp [List.append_assoc]
    · obtain ⟨pre, post, hpp⟩ := h3 e h hi
      refine ⟨cs ++ pre, post, ?_⟩
      rw [hpp, hcs]
      simp [List.append_assoc]

theorem registerOrSnap_motion (env : Env) (hm : motionAllowed env = .ok true) (ob : Observer)
    (el : Nat) (p : Page) :
    registerOrSnap env ob el p
      = ⟨({ p with world := p.world.setOpacity el "0" } : Page).observe ob el, none⟩ := by
  simp [registerOrSnap, hm]

theorem registerOrSnap_still_observed (env : Env) (hm : motionAllowed env = .ok false)
    (ob : Observer) (el : Nat) (p : Page) :
    (registerOrSnap env ob el p).page.observed = p.observed
    ∧ (registerOrSnap env ob el p).page.sections = p.sections := by
  simp [registerOrSnap, hm]

theorem observeLoop_still (env : Env) (hm : motionAllowed env = .ok false) (l : List Nat) :
    ∀ p : Page,
      (forEachThrow (registerOrSnap env .revealObserver) l p).page.observed = p.observed := by
  induction l with
  | nil => intro p; rfl
  | cons el l ih =>
    intro p
    rw [forEachThrow_cons]
    have hs := registerOrSnap_still_observed env hm .revealObserver el p
    split
    · rw [ih, hs.1]
    · exact hs.1

theorem observeLoop_motion (env : Env) (hm : motionAllowed env = .ok true) (l : List Nat) :
    ∀ p : Page,
      (forEachThrow (registerOrSnap env .revealObserver) l p).thrown = none
      ∧ (∀ x, x ∈ p.observed →
          x ∈ (forEachThrow (registerOrSnap env .revealObserver) l p).page.observed)
      ∧ (∀ x, (p.world.elems x).opacity = "0" →
          ((forEachThrow (registerOrSnap env .revealObserver) l p).page.world.elems x).opacity
            = "0")
      ∧ (∀ el ∈ l,
          el ∈ (forEachThrow (registerOrSnap env .revealObserver) l p).page.observed
          ∧ ((forEachThrow (registerOrSnap env .revealObserver) l p).page.world.elems
              el).opacity = "0") := by
  induction l with
  | nil => intro p; exact ⟨rfl, fun _ h => h, fun _ h => h, fun el h => by cases h⟩
  | cons d l ih =>
    intro p
    have hstep := registerOrSnap_motion env hm .revealObserver d p
    have hth : (registerOrSnap env .revealObserver d p).thrown = none := by rw [hstep]
    have hobs : ∀ x, x ∈ (registerOrSnap env .revealObserver d p).page.observed
        ↔ x ∈ p.observed ∨ x = d := by
      intro x
      rw [hstep]
      exact mem_observeTarget p.observed d x
    have hop : ∀ x, ((registerOrSnap env .revealObserver d p).page.world.elems x).opacity
        = if x = d then "0" else (p.world.elems x).opacity := by
      intro x
      rw [hstep]
      by_cases hx : x = d
      · subst hx; simp [Page.observe, World.setOpacity, World.setElem]
      · simp [Page.observe, World.setOpacity, World.setElem, hx]
    rw [forEachThrow_cons, if_pos hth]
    obtain ⟨h1, h2, h3, h4⟩ := ih (registerOrSnap env .revealObserver d p).page
    refine ⟨h1, fun x hx => h2 x ((hobs x).mpr (Or.inl hx)), ?_, ?_⟩
    · intro x hx
      apply h3
      rw [hop]
      split
      · rfl
      · exact hx
    · intro el hel
      rcases List.mem_cons.mp hel with h | h
      · subst h
        exact ⟨h2 el ((hobs el).mpr (Or.inr rfl)), h3 el (by rw [hop]; simp)⟩
      · exact h4 el h

theorem registerOrSnap_still (env : Env) (hm : motionAllowed env = .ok false)
    (ob : Observer) (el : Nat) (p : Page) :
    (registerOrSnap env ob el p).page.world
        = (revealDispatch env [] el p.world).world
    ∧ (registerOrSnap env ob el p).thrown = (revealDispatch env [] el p.world).thrown := by
  rw [revealDispatch_still env hm]
  simp [registerOrSnap, hm]

theorem snapLoop_still (env : Env) (hm : motionAllowed env = .ok false) (ob : Observer)
    (l : List Nat) :
    ∀ p : Page, StillStep p.world (forEachThrow (registerOrSnap env ob) l p).page.world := by
  induction l with
  | nil => intro p; exact StillStep.refl _
  | cons el l ih =>
    intro p
    have hst : StillStep p.world (registerOrSnap env ob el p).page.world := by
      rw [(registerOrSnap_still env hm ob el p).1]
      exact (revealDispatch_still_step env hm [] el p.world).1
    rw [forEachThrow_cons]
    split
    · exact hst.trans (ih _)
    · exact hst

theorem snapLoop_thrown (env : Env) (hm : motionAllowed env = .ok false) (ob : Observer)
    (l : List Nat) :
    ∀ p : Page,
      (∀ el ∈ l, ∀ i ∈ (p.world.elems el).skillBars, (p.world.bars i).fill.isSome = true) →
      (forEachThrow (registerOrSnap env ob) l p).thrown = none := by
  induction l with
  | nil => intro p _; rfl
  | cons el l ih =>
    intro p hf
    have hstep : (registerOrSnap env ob el p).thrown = none := by
      rw [(registerOrSnap_still env hm ob el p).2]
      exact (revealDispatch_still_step env hm [] el p.world).2.2.1 (hf el (by simp))
    have hst : StillStep p.world (registerOrSnap env ob el p).page.world := by
      rw [(registerOrSnap_still env hm ob el p).1]
      exact (revealDispatch_still_step env hm [] el p.world).1
    rw [forEachThrow_cons, if_pos hstep]
    apply ih
    intro d hd i hmem
    rw [(hst.2.1 d).1] at hmem
    rw [(hst.2.2 i).2.1]
    exact hf d (by simp [hd]) i hmem

theorem snapLoop_snapped (env : Env) (hm : motionAllowed env = .ok false) (ob : Observer)
    (l : List Nat) :
    ∀ p : Page, (forEachThrow (registerOrSnap env ob) l p).thrown = none →
      ∀ el ∈ l,
        ((forEachThrow (registerOrSnap env ob) l p).page.world.elems el).opacity = "1"
        ∧ ∀ i ∈ (p.world.elems el).skillBars,
            ((forEachThrow (registerOrSnap env ob) l p).page.world.bars i).snapped := by
  induction l with
  | nil => intro p _ el he; cases he
  | cons d l ih =>
    intro p
    have hrest := snapLoop_still env hm ob l (registerOrSnap env ob d p).page
    have hw := (registerOrSnap_still env hm ob d p).1
    have hd := revealDispatch_still_step env hm [] d p.world
    have hst : StillStep p.world (registerOrSnap env ob d p).page.world := by
      rw [hw]; exact hd.1
    rw [forEachThrow_cons]
    split
    · rename_i hstep
      intro hth el he
      rcases List.mem_cons.mp he with h | h
      · subst h
        have hdth : (revealDispatch env [] el p.world).thrown = none := by
          rw [(registerOrSnap_still env hm ob el p).2] at hstep
          exact hstep
        constructor
        · apply (hrest.2.1 el).2
          rw [hw]
          exact hd.2.1
        · intro i hmem
          apply (hrest.2.2 i).2.2
          rw [hw]
          exact hd.2.2.2 hdth i hmem
      · obtain ⟨h1, h2⟩ := ih _ hth el h
        refine ⟨h1, ?_⟩
        intro i hmem
        apply h2
        rw [(hst.2.1 el).1]
        exact hmem
    · rename_i hstep
      intro hth
      exact absurd hth hstep

/-- C11 (counterexample): with motion allowed, section 0 is registered by
observeAll at DOM ready, its entrance is dispatched by the callback of
revealObserver, which removes it from the observer; a resize then runs
observeAll again, which sets its opacity back to 0 and registers it again,
and the next callback dispatches its entrance a second time. -/
theorem C11_counterexample :
    afterReady.observed = [0]
    ∧ afterReveal.observed = []
    ∧ afterReveal.world.gsap = [.entrance 0]
    ∧ afterResize.observed = [0]
    ∧ (afterResize.world.elems 0).opacity = "0"
    ∧ afterSecondReveal.world.gsap = [.entrance 0, .entrance 0] := by
  refine ⟨rfl, rfl, rfl, rfl, rfl, rfl⟩

/-- C11 (amended): with motion allowed, the callback of a reveal observer
returns, removes every element whose entrance it dispatches from that
observer and registers nothing; but observeAll, which runs at DOM ready and
in every reinitAllAnimations, returns with every section and card registered
with revealObserver and at opacity 0, also those whose entrance was just
dispatched. With motion disallowed observeAll registers nothing and makes no
library call, and when every skill bar of the sections has a fill element it
returns with every section and card at opacity 1 and every skill bar inside
them marked animated. -/
theorem C11_reveal_amended (env : Env) (hm : motionAllowed env = .ok true) (ob : Observer)
    (entries : List Entry) (p : Page) :
    (observerCallback env ob entries p).thrown = none
    ∧ (∀ e ∈ entries, e.isIntersecting = true →
        e.target ∉ (observerCallback env ob entries p).page.targets ob)
    ∧ (∀ x ∈ (observerCallback env ob entries p).page.targets ob, x ∈ p.targets ob)
    ∧ (observeAll env p).thrown = none
    ∧ (∀ el ∈ p.sections, el ∈ (observeAll env p).page.observed
        ∧ ((observeAll env p).page.world.elems el).opacity = "0")
    ∧ (∀ e ∈ entries, e.isIntersecting = true → e.target ∈ p.sections →
        e.target ∈ (observeAll env
          (observerCallback env .revealObserver entries p).page).page.observed)
    ∧ (∀ env2 : Env, motionAllowed env2 = .ok false →
        (observeAll env2 p).page.observed = p.observed
        ∧ (observeAll env2 p).page.world.gsap = p.world.gsap
        ∧ ((∀ el ∈ p.sections, ∀ i ∈ (p.world.elems el).skillBars,
              (p.world.bars i).fill.isSome = true) →
            (observeAll env2 p).thrown = none
            ∧ ∀ el ∈ p.sections,
                ((observeAll env2 p).page.world.elems el).opacity = "1"
                ∧ ∀ i ∈ (p.world.elems el).skillBars,
                    ((observeAll env2 p).page.world.bars i).animated = some "true")) := by
  have hcb := observerCallback_motion env hm ob entries p
  have htg := observerCallback_targets env ob entries p hcb.1
  have hall := observeLoop_motion env hm p.sections p
  refine ⟨hcb.1, ?_, ?_, hall.1, hall.2.2.2, ?_, ?_⟩
  · intro e he hi hmem
    exact ((htg e.target).mp hmem).2 e he hi rfl
  · intro x hx
    exact ((htg x).mp hx).1
  · intro e he _ hsec
    have hst := observerCallback_static env .revealObserver entries p
    have h := (observeLoop_motion env hm
      (observerCallback env .revealObserver entries p).page.sections
      (observerCallback env .revealObserver entries p).page).2.2.2 e.target
      (by rw [hst.1]; exact hsec)
    exact h.1
  · intro env2 hm2
    refine ⟨observeLoop_still env2 hm2 p.sections p,
      (snapLoop_still env2 hm2 .revealObserver p.sections p).1, ?_⟩
    intro hfill
    have hth := snapLoop_thrown env2 hm2 .revealObserver p.sections p hfill
    refine ⟨hth, fun el hel => ?_⟩
    have h := snapLoop_snapped env2 hm2 .revealObserver p.sections p hth el hel
    exact ⟨h.1, fun i hi => (h.2 i hi).1⟩

/-- C11 (witness): on the example page, after the dispatch for section 0 the
observer no longer holds it, and observeAll registers it again; under the OS
signal true observeAll leaves section 0 at opacity 1. -/
theorem C11_reveal_amended_witness :
    motionAllowed motionEnv = .ok true
    ∧ 0 ∉ (observerCallback motionEnv .revealObserver
        [{ target := 0, isIntersecting := true }] afterReady).page.observed
    ∧ 0 ∈ (observeAll motionEnv (observerCallback motionEnv .revealObserver
        [{ target := 0, isIntersecting := true }] afterReady).page).page.observed
    ∧ ((observeAll reducedEnv afterReady).page.world.elems 0).opacity = "1" :=
  have h := C11_reveal_amended motionEnv rfl .revealObserver
    [{ target := 0, isIntersecting := true }] afterReady
  ⟨rfl, h.2.1 { target := 0, isIntersecting := true } (by simp) rfl,
   h.2.2.2.2.2.1 { target := 0, isIntersecting := true } (by simp) rfl (by decide),
   (((h.2.2.2.2.2.2 reducedEnv rfl).2.2 (fun _ _ _ _ => rfl)).2 0 (by decide)).1⟩

/-- The callback of either reveal observer on a batch, in a run in which
motionAllowed returns a and, under disallowed motion, the skill bars of the
intersecting targets have a fill element. -/
theorem observerCallback_batch (env : Env) (a : Bool) (hm : motionAllowed env = .ok a)
    (ob : Observer) (entries : List Entry) (p : Page)
    (hfill : a = false → ∀ e ∈ entries, e.isIntersecting = true →
      ∀ i ∈ (p.world.elems e.target).skillBars, (p.world.bars i).fill.isSome = true) :
    (observerCallback env ob entries p).thrown = none
    ∧ (∀ x, x ∈ (observerCallback env ob entries p).page.targets ob
        ↔ (x ∈ p.targets ob ∧ ∀ e ∈ entries, e.isIntersecting = true → e.target ≠ x))
    ∧ (∀ (e : Entry) (q : Page), e.isIntersecting = false →
        revealEntry env ob e q = ⟨q, none⟩)
    ∧ (a = false →
        (observerCallback env ob entries p).page.world.gsap = p.world.gsap
        ∧ ∀ e ∈ entries, e.isIntersecting = true →
            ((observerCallback env ob entries p).page.world.elems e.target).opacity = "1"
            ∧ ∀ i ∈ (p.world.elems e.target).skillBars,
                ((observerCallback env ob entries p).page.world.bars i).snapped)
    ∧ (a = true → ∀ e ∈ entries, e.isIntersecting = true →
        ∃ pre post, (observerCallback env ob entries p).page.world.gsap
          = p.world.gsap ++ pre ++ [.entrance e.target] ++ post)
    ∧ (a = true → ∀ (e : Entry) (q : Page), e.isIntersecting = true →
        (revealEntry env ob e q).page.world
          = (if ((requestEntrance (q.innerCards e.target) e.target q.world).elems
                  e.target).skillBars.isEmpty
             then requestEntrance (q.innerCards e.target) e.target q.world
             else (animateSkillBars env
                    (((requestEntrance (q.innerCards e.target) e.target q.world).elems
                        e.target).skillBars.map some)
                    false
                    (requestEntrance (q.innerCards e.target) e.target q.world)).world)) := by
  have hth : (observerCallback env ob entries p).thrown = none := by
    cases a with
    | true => exact (observerCallback_motion env hm ob entries p).1
    | false => exact observerCallback_still_thrown env hm ob entries p (hfill rfl)
  refine ⟨hth, observerCallback_targets env ob entries p hth,
    fun e q h => revealEntry_not_intersecting env ob e q h, ?_, ?_, ?_⟩
  · intro ha
    subst ha
    exact ⟨(observerCallback_still env hm ob entries p).1,
      observerCallback_still_snapped env hm ob entries p hth⟩
  · intro ha
    subst ha
    exact (observerCallback_motion env hm ob entries p).2.2
  · intro ha e q hi
    subst ha
    rw [revealEntry_world, if_pos hi]
    unfold revealDispatch
    simp only [hm]
    split <;> rfl

/-- C12 (the code at the failing input): motion is disallowed, by the stored
override or by the OS signal, and the batch holds two intersecting sections
of which the first contains a skill bar without a nested .fill element. The
callback sets the opacity of the first section to 1, then applySkillFallback
throws on line 379 before the bar is marked and before unobserve is reached:
the exception leaves the callback, the first section stays observed, and the
second entry is never dispatched. The same happens in the callback of
window.revealObserver. -/
theorem C12_fill_less_bar_aborts_batch :
    motionAllowed overrideEnv = .ok false
    ∧ (observerCallback overrideEnv .revealObserver
        [{ target := 0, isIntersecting := true }, { target := 1, isIntersecting := true }]
        (twoSectionPage fillLessBar)).thrown = some .typeError
    ∧ (observerCallback overrideEnv .revealObserver
        [{ target := 0, isIntersecting := true }, { target := 1, isIntersecting := true }]
        (twoSectionPage fillLessBar)).page.observed = [0, 1]
    ∧ ((observerCallback overrideEnv .revealObserver
        [{ target := 0, isIntersecting := true }, { target := 1, isIntersecting := true }]
        (twoSectionPage fillLessBar)).page.world.elems 0).opacity = "1"
    ∧ ((observerCallback overrideEnv .revealObserver
        [{ target := 0, isIntersecting := true }, { target := 1, isIntersecting := true }]
        (twoSectionPage fillLessBar)).page.world.bars 0).animated = none
    ∧ ((observerCallback overrideEnv .revealObserver
        [{ target := 0, isIntersecting := true }, { target := 1, isIntersecting := true }]
        (twoSectionPage fillLessBar)).page.world.elems 1).opacity = ""
    ∧ (observerCallback overrideEnv .windowRevealObserver
        [{ target := 0, isIntersecting := true }, { target := 1, isIntersecting := true }]
        (twoSectionPage fillLessBar)).thrown = some .typeError
    ∧ (observerCallback overrideEnv .windowRevealObserver
        [{ target := 0, isIntersecting := true }, { target := 1, isIntersecting := true }]
        (twoSectionPage fillLessBar)).page.windowObserved = some [0, 1]
    ∧ motionAllowed reducedEnv = .ok false
    ∧ (observerCallback reducedEnv .revealObserver
        [{ target := 0, isIntersecting := true }, { target := 1, isIntersecting := true }]
        (twoSectionPage fillLessBar)).thrown = some .typeError
    ∧ (observerCallback reducedEnv .revealObserver
        [{ target := 0, isIntersecting := true }, { target := 1, isIntersecting := true }]
        (twoSectionPage fillLessBar)).page.observed = [0, 1] := by
  refine ⟨rfl, rfl, rfl, rfl, rfl, rfl, rfl, rfl, rfl, rfl, rfl⟩

end Portfolio
